import Mathlib

/-!
Shallow embedding of the Monopoly-variant game engine
(`src/gameLogic.tsx` and the game handlers of `src/App.tsx`).

Conventions:
* JS objects keyed by strings become association lists `List (String × α)`,
  preserving key insertion order (it matters for `Object.keys`, `Object.entries`
  and the stable `sort` used by auction settlement).
* JS numbers holding money become `ℚ` (the source divides costs by 2 and
  multiplies by 1.1, producing fractional values); positions are `Nat`,
  counters are `Int`.
* Every Firestore write (`updateDoc` / transaction commit) is modelled as a
  pure state transformation `GameState → GameState`.  An early `return` after
  an `alert`, and a thrown exception before any write, both leave the stored
  document unchanged, so both are modelled as returning the input state.
* Display-only data (names, colors, `gameLog`, `propertyVisits`, `drawnCard`)
  is omitted: no write to any other field depends on it.
-/

namespace Monopoly

abbrev PlayerId := String
abbrev PropertyId := String

/-- The `Player` interface of `gameLogic.tsx` (minus display-only fields). -/
structure Player where
  id : PlayerId
  money : ℚ
  position : Nat
  animatedPosition : Nat
  cities : List PropertyId
  airports : List PropertyId
  harbours : List PropertyId
  companies : List PropertyId
  inJail : Bool
  jailTurns : Int
  doublesCount : Int
  onVacation : Bool
  getOutOfJailFreeCards : Int
  houses : Int
  hotels : Int
  deriving DecidableEq, Repr

/-- The dynamic `PropertyState` of a board square. -/
structure PropertyState where
  owner : Option PlayerId
  houses : Int
  hotels : Int
  mortgaged : Bool
  deriving DecidableEq, Repr

/-- The `GameSettings` interface (booleans the engine reads). -/
structure GameSettings where
  allowAuctions : Bool
  allowOwnedPropertyAuctions : Bool
  allowMortgage : Bool
  rentInJail : Bool
  taxInVacationPot : Bool
  doubleRentOnMonopoly : Bool
  increasingJailFine : Bool
  deriving DecidableEq, Repr

/-- The `AuctionState` interface (the `log` field is display-only). -/
structure AuctionState where
  active : Bool
  propertyId : Option PropertyId
  currentBid : Option ℚ
  highestBidder : Option PlayerId
  bidCount : Int
  sellerId : Option PlayerId
  bids : List (PlayerId × ℚ)
  deriving DecidableEq, Repr

/-- One side of a `Trade` (`offer` / `request`). -/
structure TradeSide where
  money : ℚ
  properties : List PropertyId
  deriving DecidableEq, Repr

/-- The `Trade` interface.  A trade sits in the `trades` map while `pending`;
    accepting or rejecting deletes it, so the `status` field never varies
    inside the map and is omitted. -/
structure Trade where
  id : String
  fromPlayer : PlayerId
  toPlayer : PlayerId
  offer : TradeSide
  request : TradeSide
  deriving DecidableEq, Repr

/-- `status` of the game document. -/
inductive GameStatus
  | waiting
  | inProgress
  | finished
  deriving DecidableEq, Repr

/-- The `GameState` document. -/
structure GameState where
  hostId : PlayerId
  status : GameStatus
  board : List (PropertyId × PropertyState)
  settings : GameSettings
  players : List (PlayerId × Player)
  turnOrder : List PlayerId
  currentPlayerTurn : PlayerId
  vacationPot : ℚ
  auction : AuctionState
  trades : List (String × Trade)
  winner : Option PlayerId
  jailCount : List (PlayerId × Int)
  deriving DecidableEq, Repr

/-! ### JS-object (string-keyed map) operations -/

/-- `obj[k]` — `none` models JS `undefined`. -/
def getKey (l : List (String × α)) (k : String) : Option α :=
  (l.find? (fun e => e.1 == k)).map (fun e => e.2)

/-- Field-path write `obj.k = v` for a key already present: the value is
    replaced in place (JS keeps the key's position). -/
def setKey (l : List (String × α)) (k : String) (v : α) : List (String × α) :=
  l.map (fun e => if e.1 == k then (k, v) else e)

/-- `obj[k] = v` when the key may be new: replace in place, else append
    (JS appends new string keys at the end of the object). -/
def putKey (l : List (String × α)) (k : String) (v : α) : List (String × α) :=
  if (l.find? (fun e => e.1 == k)).isSome then setKey l k v else l ++ [(k, v)]

/-- Update the value at `k` (no-op when absent, as for a field-path write on a
    missing document member). -/
def modKey (l : List (String × α)) (k : String) (f : α → α) : List (String × α) :=
  l.map (fun e => if e.1 == k then (e.1, f e.2) else e)

/-- `deleteField()` on `obj.k`. -/
def removeKey (l : List (String × α)) (k : String) : List (String × α) :=
  l.filter (fun e => e.1 != k)

/-- `Object.keys`. -/
def keysOf (l : List (String × α)) : List String :=
  l.map (fun e => e.1)

/-- Apply `f` to the player stored under `pid`. -/
def updatePlayer (gs : GameState) (pid : PlayerId) (f : Player → Player) : GameState :=
  { gs with players := modKey gs.players pid f }

/-- `players.${pid}.money: increment(delta)`. -/
def addMoney (gs : GameState) (pid : PlayerId) (delta : ℚ) : GameState :=
  updatePlayer gs pid (fun p => { p with money := p.money + delta })

/-! ### Static reference data -/

/-- Square type tags ("go", "city", ..., "go-to-jail-square"). -/
inductive SquareType
  | go
  | city
  | airport
  | harbour
  | company
  | tax
  | treasure
  | surprise
  | jail
  | vacation
  | goToJailSquare
  deriving DecidableEq, Repr

/-- A static board square: the union of the `BaseSquare` / `CitySquare` /
    `UtilitySquare` / `TaxSquare` interfaces flattened into one record
    (irrelevant fields keep their defaults). -/
structure BoardSquare where
  type : SquareType
  country : String := ""
  cost : Int := 0
  rent : List Int := []
  amount : ℚ := 0
  deriving DecidableEq, Repr

/-- `countryData` entry. -/
structure CountryInfo where
  cities : List Nat
  houseCost : Int
  deriving DecidableEq, Repr

/-- `countryData` of `gameLogic.tsx`. -/
def countryData : List (String × CountryInfo) :=
  [ ("Brazil",    ⟨[1, 3, 6],        50⟩),
    ("China",     ⟨[8, 9, 11],       50⟩),
    ("Japan",     ⟨[33, 35],        100⟩),
    ("Germany",   ⟨[24, 25, 27],    100⟩),
    ("Russia",    ⟨[29, 30, 32],    150⟩),
    ("France",    ⟨[17, 18, 20, 22],150⟩),
    ("UK",        ⟨[43, 44, 46, 48],200⟩),
    ("Canada",    ⟨[13, 15],        200⟩),
    ("India",     ⟨[37, 39, 41],    220⟩),
    ("Australia", ⟨[49, 51, 52],    220⟩),
    ("USA",       ⟨[53, 54, 55],    250⟩) ]

/-- `initialBoardState` of `gameLogic.tsx` (names dropped; keys are the JS
    string keys "0".."55"). -/
def initialBoardState : List (String × BoardSquare) :=
  [ ("0",  { type := .go }),
    ("1",  { type := .city, country := "Brazil", cost := 60, rent := [4, 20, 60, 180, 320, 450] }),
    ("2",  { type := .treasure }),
    ("3",  { type := .city, country := "Brazil", cost := 60, rent := [4, 20, 60, 180, 320, 450] }),
    ("4",  { type := .tax, amount := (10 : ℚ) / 100 }),
    ("5",  { type := .airport, cost := 200, rent := [25, 50, 100, 200] }),
    ("6",  { type := .city, country := "Brazil", cost := 80, rent := [6, 30, 90, 270, 400, 550] }),
    ("7",  { type := .surprise }),
    ("8",  { type := .city, country := "China", cost := 100, rent := [6, 30, 90, 270, 400, 550] }),
    ("9",  { type := .city, country := "China", cost := 100, rent := [6, 30, 90, 270, 400, 550] }),
    ("10", { type := .harbour, cost := 150, rent := [50, 100, 150, 200] }),
    ("11", { type := .city, country := "China", cost := 120, rent := [8, 40, 100, 300, 450, 600] }),
    ("12", { type := .company, cost := 150, rent := [4, 10] }),
    ("13", { type := .city, country := "Canada", cost := 140, rent := [10, 50, 150, 450, 625, 750] }),
    ("14", { type := .jail }),
    ("15", { type := .city, country := "Canada", cost := 160, rent := [12, 60, 180, 500, 700, 900] }),
    ("16", { type := .airport, cost := 200, rent := [25, 50, 100, 200] }),
    ("17", { type := .city, country := "France", cost := 180, rent := [14, 70, 200, 550, 750, 950] }),
    ("18", { type := .city, country := "France", cost := 180, rent := [14, 70, 200, 550, 750, 950] }),
    ("19", { type := .treasure }),
    ("20", { type := .city, country := "France", cost := 200, rent := [16, 80, 220, 600, 800, 1000] }),
    ("21", { type := .harbour, cost := 150, rent := [50, 100, 150, 200] }),
    ("22", { type := .city, country := "France", cost := 220, rent := [18, 90, 250, 700, 875, 1050] }),
    ("23", { type := .surprise }),
    ("24", { type := .city, country := "Germany", cost := 220, rent := [18, 90, 250, 700, 875, 1050] }),
    ("25", { type := .city, country := "Germany", cost := 240, rent := [20, 100, 300, 750, 925, 1100] }),
    ("26", { type := .company, cost := 150, rent := [4, 10] }),
    ("27", { type := .city, country := "Germany", cost := 260, rent := [22, 110, 330, 800, 975, 1150] }),
    ("28", { type := .vacation }),
    ("29", { type := .city, country := "Russia", cost := 260, rent := [22, 110, 330, 800, 975, 1150] }),
    ("30", { type := .city, country := "Russia", cost := 280, rent := [24, 120, 360, 850, 1025, 1200] }),
    ("31", { type := .airport, cost := 200, rent := [25, 50, 100, 200] }),
    ("32", { type := .city, country := "Russia", cost := 300, rent := [26, 130, 390, 900, 1100, 1275] }),
    ("33", { type := .city, country := "Japan", cost := 300, rent := [26, 130, 390, 900, 1100, 1275] }),
    ("34", { type := .treasure }),
    ("35", { type := .city, country := "Japan", cost := 320, rent := [28, 150, 450, 1000, 1200, 1400] }),
    ("36", { type := .harbour, cost := 150, rent := [50, 100, 150, 200] }),
    ("37", { type := .city, country := "India", cost := 350, rent := [35, 175, 500, 1100, 1300, 1500] }),
    ("38", { type := .surprise }),
    ("39", { type := .city, country := "India", cost := 400, rent := [50, 200, 600, 1400, 1700, 2000] }),
    ("40", { type := .tax, amount := 100 }),
    ("41", { type := .city, country := "India", cost := 350, rent := [35, 175, 500, 1100, 1300, 1500] }),
    ("42", { type := .goToJailSquare }),
    ("43", { type := .city, country := "UK", cost := 350, rent := [35, 175, 500, 1100, 1300, 1500] }),
    ("44", { type := .city, country := "UK", cost := 400, rent := [50, 200, 600, 1400, 1700, 2000] }),
    ("45", { type := .airport, cost := 200, rent := [25, 50, 100, 200] }),
    ("46", { type := .city, country := "UK", cost := 425, rent := [55, 225, 650, 1500, 1800, 2100] }),
    ("47", { type := .treasure }),
    ("48", { type := .city, country := "UK", cost := 425, rent := [55, 225, 650, 1500, 1800, 2100] }),
    ("49", { type := .city, country := "Australia", cost := 450, rent := [60, 250, 700, 1600, 1900, 2200] }),
    ("50", { type := .harbour, cost := 150, rent := [50, 100, 150, 200] }),
    ("51", { type := .city, country := "Australia", cost := 475, rent := [65, 275, 750, 2000, 2400] }),
    ("52", { type := .city, country := "Australia", cost := 500, rent := [70, 300, 800, 1800, 2100, 2500] }),
    ("53", { type := .city, country := "USA", cost := 550, rent := [75, 325, 850, 1900, 2200, 2600] }),
    ("54", { type := .city, country := "USA", cost := 550, rent := [75, 325, 850, 1900, 2200, 2600] }),
    ("55", { type := .city, country := "USA", cost := 600, rent := [80, 350, 900, 2000, 2400, 2800] }) ]

/-- Which per-player ownership array a square type belongs to
    (the `propertyTypeMap` object, repeated through the source). -/
inductive OwnCat
  | cities
  | airports
  | harbours
  | companies
  deriving DecidableEq, Repr

/-- `propertyTypeMap[square.type]` — `none` for non-ownable square types. -/
def propertyTypeMap : SquareType → Option OwnCat
  | .city => some .cities
  | .airport => some .airports
  | .harbour => some .harbours
  | .company => some .companies
  | _ => none

/-- Read a player's ownership array for a category. -/
def getArr (p : Player) : OwnCat → List PropertyId
  | .cities => p.cities
  | .airports => p.airports
  | .harbours => p.harbours
  | .companies => p.companies

/-- Replace a player's ownership array for a category. -/
def setArr (p : Player) : OwnCat → List PropertyId → Player
  | .cities, l => { p with cities := l }
  | .airports, l => { p with airports := l }
  | .harbours, l => { p with harbours := l }
  | .companies, l => { p with companies := l }

/-- JS `rent[i] || 0`: out-of-range (or negative) indices read as 0.
    The write `rent[5]` in the hotel branch of `handlePayment` has no `|| 0`
    fallback; the only square whose table lacks index 5 is "51" (Melbourne),
    where the JS value is `undefined` — modelled as 0 here as well. -/
def rentEntry (sq : BoardSquare) (i : Int) : ℚ :=
  if i < 0 then 0 else (((sq.rent.get? i.toNat).getD 0 : Int) : ℚ)

/-- Firestore `arrayUnion(x)`: append `x` unless already present. -/
def arrayUnion (l : List String) (x : String) : List String :=
  if l.contains x then l else l ++ [x]

/-! ### Core game-logic functions (`gameLogic.tsx`) -/

/-- `goToJail`. -/
def goToJail (gs : GameState) (playerId : PlayerId) : GameState :=
  let jc := ((getKey gs.jailCount playerId).getD 0) + 1
  let gs := updatePlayer gs playerId (fun p =>
    { p with position := 14, animatedPosition := 14, inJail := true,
             jailTurns := 1, doublesCount := 0 })
  { gs with jailCount := putKey gs.jailCount playerId jc }

/-- `payJailFine`. -/
def payJailFine (gs : GameState) (playerId : PlayerId) : GameState :=
  match getKey gs.players playerId with
  | none => gs
  | some player =>
    let fine : ℚ :=
      if gs.settings.increasingJailFine then
        100 + ((((getKey gs.jailCount playerId).getD 0) - 1 : Int) : ℚ) * 20
      else 100
    if player.money < fine then gs
    else updatePlayer gs playerId (fun p =>
      { p with money := p.money - fine, inJail := false })

/-- `handleUsePardonCard`. -/
def handleUsePardonCard (gs : GameState) (playerId : PlayerId) : GameState :=
  match getKey gs.players playerId with
  | none => gs
  | some player =>
    if player.getOutOfJailFreeCards ≤ 0 then gs
    else updatePlayer gs playerId (fun p =>
      { p with getOutOfJailFreeCards := p.getOutOfJailFreeCards - 1, inJail := false })

/-- `buyProperty`, with the purchase of a present non-ownable (hence
    cost-less) square collapsed to a no-op; `buyPropertyE` is the exact model
    in which that NaN-writing run is the error result. -/
def buyProperty (gs : GameState) (playerId : PlayerId) (propertyPosition : Nat) : GameState :=
  match getKey gs.players playerId, getKey initialBoardState (toString propertyPosition) with
  | some player, some property =>
    match propertyTypeMap property.type with
    | none => gs
    | some cat =>
      if player.money < (property.cost : ℚ) then gs
      else
        let gs := updatePlayer gs playerId (fun p =>
          setArr { p with money := p.money - (property.cost : ℚ) } cat
            (arrayUnion (getArr p cat) (toString propertyPosition)))
        let newBoard := modKey gs.board (toString propertyPosition)
          (fun ps => { ps with owner := some playerId })
        { gs with board := newBoard }
  | _, _ => gs

/-- `sellProperty`. -/
def sellProperty (gs : GameState) (playerId : PlayerId) (propertyId : PropertyId) : GameState :=
  match getKey gs.players playerId, getKey initialBoardState propertyId,
        getKey gs.board propertyId with
  | some _player, some propertyInfo, some propertyState =>
    if propertyState.houses > 0 || propertyState.hotels > 0 then gs
    else if propertyState.mortgaged then gs
    else if propertyState.owner ≠ some playerId then gs
    else
      match propertyTypeMap propertyInfo.type with
      | none => gs
      | some cat =>
        let sellValue : ℚ := (propertyInfo.cost : ℚ) / 2
        let gs := updatePlayer gs playerId (fun p =>
          let p := { p with money := p.money + sellValue }
          if (getArr p cat).contains propertyId then
            setArr p cat ((getArr p cat).filter (fun q => q ≠ propertyId))
          else p)
        let newBoard := modKey gs.board propertyId
          (fun ps => { ps with owner := none })
        { gs with board := newBoard }
  | _, _, _ => gs

/-- `mortgageProperty`. -/
def mortgageProperty (gs : GameState) (playerId : PlayerId) (propertyId : PropertyId) : GameState :=
  if !gs.settings.allowMortgage then gs
  else
    match getKey initialBoardState propertyId, getKey gs.board propertyId with
    | some propertyInfo, some propertyState =>
      if propertyState.houses > 0 || propertyState.hotels > 0 then gs
      else if propertyState.owner ≠ some playerId then gs
      else if propertyState.mortgaged then gs
      else
        let mortgageValue : ℚ := (propertyInfo.cost : ℚ) / 2
        let gs := addMoney gs playerId mortgageValue
        let newBoard := modKey gs.board propertyId
          (fun ps => { ps with mortgaged := true })
        { gs with board := newBoard }
    | _, _ => gs

/-- `unmortgageProperty` (note: the source debits `(cost / 2) * 1.1` and never
    checks that the property is currently mortgaged). -/
def unmortgageProperty (gs : GameState) (playerId : PlayerId) (propertyId : PropertyId) : GameState :=
  if !gs.settings.allowMortgage then gs
  else
    match getKey initialBoardState propertyId, getKey gs.players playerId,
          getKey gs.board propertyId with
    | some propertyInfo, some player, some propertyState =>
      let unmortgageCost : ℚ := ((propertyInfo.cost : ℚ) / 2) * (11 / 10)
      if player.money < unmortgageCost then gs
      else if propertyState.owner ≠ some playerId then gs
      else
        let gs := addMoney gs playerId (-unmortgageCost)
        let newBoard := modKey gs.board propertyId
          (fun ps => { ps with mortgaged := false })
        { gs with board := newBoard }
    | _, _, _ => gs

/-- `buildHouse` (the source checks monopoly and money but not `mortgaged`). -/
def buildHouse (gs : GameState) (playerId : PlayerId) (cityId : PropertyId) : GameState :=
  match getKey gs.players playerId, getKey initialBoardState cityId,
        getKey gs.board cityId with
  | some player, some cityInfo, some cityState =>
    match getKey countryData cityInfo.country with
    | none => gs
    | some countryInfo =>
      let hasMonopoly := countryInfo.cities.all (fun cId => player.cities.contains (toString cId))
      if !hasMonopoly then gs
      else if player.money < (countryInfo.houseCost : ℚ) then gs
      else if cityState.houses ≥ 4 && cityState.hotels == 0 then
        let gs := updatePlayer gs playerId (fun p =>
          { p with money := p.money - (countryInfo.houseCost : ℚ),
                   houses := p.houses - 4, hotels := p.hotels + 1 })
        let newBoard := modKey gs.board cityId
          (fun ps => { ps with houses := 0, hotels := 1 })
        { gs with board := newBoard }
      else if cityState.houses < 4 then
        let gs := updatePlayer gs playerId (fun p =>
          { p with money := p.money - (countryInfo.houseCost : ℚ),
                   houses := p.houses + 1 })
        let newBoard := modKey gs.board cityId
          (fun ps => { ps with houses := ps.houses + 1 })
        { gs with board := newBoard }
      else gs
  | _, _, _ => gs

/-- `sellHouse` (selling a hotel restores 4 houses on the square). -/
def sellHouse (gs : GameState) (playerId : PlayerId) (cityId : PropertyId) : GameState :=
  match getKey initialBoardState cityId, getKey gs.board cityId with
  | some cityInfo, some cityState =>
    match getKey countryData cityInfo.country with
    | none => gs
    | some countryInfo =>
      let salePrice : ℚ := (countryInfo.houseCost : ℚ) / 2
      if cityState.hotels > 0 then
        let gs := updatePlayer gs playerId (fun p =>
          { p with money := p.money + salePrice,
                   hotels := p.hotels - 1, houses := p.houses + 4 })
        let newBoard := modKey gs.board cityId
          (fun ps => { ps with hotels := 0, houses := 4 })
        { gs with board := newBoard }
      else if cityState.houses > 0 then
        let gs := updatePlayer gs playerId (fun p =>
          { p with money := p.money + salePrice, houses := p.houses - 1 })
        let newBoard := modKey gs.board cityId
          (fun ps => { ps with houses := ps.houses - 1 })
        { gs with board := newBoard }
      else gs
  | _, _ => gs

/-- `handleBankruptcy`. -/
def handleBankruptcy (gs : GameState) (playerId : PlayerId) : GameState :=
  let playerIds := keysOf gs.players
  if playerIds = [playerId] then
    { gs with status := .finished, winner := some playerId }
  else
    let newBoard := gs.board.map (fun e =>
      if e.2.owner == some playerId then
        (e.1, { e.2 with owner := none, houses := 0, hotels := 0, mortgaged := false })
      else e)
    let remaining := playerIds.filter (fun pId => pId ≠ playerId)
    let gs := { gs with players := removeKey gs.players playerId, board := newBoard }
    match remaining with
    | [winnerId] => { gs with status := .finished, winner := some winnerId }
    | _ => gs

/-- The rent computation of `handlePayment`'s `switch` — `none` models the
    `default: return` branch (square type with no rent).  The hotel override
    read `rent[5]` is collapsed to 0 here; `rentOfE` is the exact model that
    keeps the undefined read (NaN-corrupting) distinct. -/
def rentOf (squareInfo : BoardSquare) (squareState : PropertyState) (owner : Player)
    (settings : GameSettings) (diceRoll : Int) : Option ℚ :=
  match squareInfo.type with
  | .city =>
    match getKey countryData squareInfo.country with
    | none => none
    | some country =>
      let ownerHasMonopoly := country.cities.all (fun cityId => owner.cities.contains (toString cityId))
      let base : ℚ :=
        if ownerHasMonopoly then
          if squareState.houses == 0 && settings.doubleRentOnMonopoly then
            rentEntry squareInfo 0 * 2
          else rentEntry squareInfo squareState.houses
        else rentEntry squareInfo 0
      some (if squareState.hotels > 0 then rentEntry squareInfo 5 else base)
  | .airport => some (rentEntry squareInfo ((owner.airports.length : Int) - 1))
  | .harbour => some (rentEntry squareInfo ((owner.harbours.length : Int) - 1))
  | .company =>
    some ((if owner.companies.length == 1 then (4 : ℚ) else 10) * (diceRoll : ℚ))
  | _ => none

/-- `handlePayment`, with the undefined Melbourne hotel-rent read collapsed
    to a 0 transfer; `handlePaymentE` is the exact model in which that run is
    the error result. -/
def handlePayment (gs : GameState) (renterId : PlayerId) (squarePosition : PropertyId)
    (diceRoll : Int) : GameState :=
  match getKey initialBoardState squarePosition, getKey gs.board squarePosition with
  | some squareInfo, some squareState =>
    match squareState.owner with
    | none => gs
    | some ownerId =>
      if ownerId == renterId || squareState.mortgaged then gs
      else
        match getKey gs.players renterId, getKey gs.players ownerId with
        | some _renter, some owner =>
          if owner.inJail && !gs.settings.rentInJail then gs
          else
            match rentOf squareInfo squareState owner gs.settings diceRoll with
            | none => gs
            | some rentAmount =>
              addMoney (addMoney gs renterId (-rentAmount)) ownerId rentAmount
        | _, _ => gs
  | _, _ => gs

/-! ### Auction protocol (`App.tsx`, `AuctionModal`) -/

/-- `startAuction` (`gameLogic.tsx`). -/
def startAuction (gs : GameState) (propertyId : PropertyId) (startingBid : ℚ)
    (sellerId : Option PlayerId) : GameState :=
  match sellerId with
  | some s =>
    if !gs.settings.allowOwnedPropertyAuctions || gs.currentPlayerTurn ≠ s then gs
    else
      match getKey initialBoardState propertyId with
      | none => gs
      | some _ =>
        let newAuction : AuctionState :=
          { active := true
            propertyId := some propertyId
            currentBid := some startingBid
            highestBidder := none
            bidCount := 0
            sellerId := sellerId
            bids := [] }
        { gs with auction := newAuction }
  | none =>
    if !gs.settings.allowAuctions then gs
    else
      match getKey initialBoardState propertyId with
      | none => gs
      | some _ =>
        let newAuction : AuctionState :=
          { active := true
            propertyId := some propertyId
            currentBid := some startingBid
            highestBidder := none
            bidCount := 0
            sellerId := none
            bids := [] }
        { gs with auction := newAuction }

/-- `placeBid` of the `AuctionModal`.  `!!auction.bids[pid]` is JS truthiness:
    a recorded bid of 0 does not count as having bid. -/
def placeBid (gs : GameState) (currentPlayerId : PlayerId) (bidAmount : ℚ) : GameState :=
  match getKey gs.players currentPlayerId with
  | none => gs
  | some me =>
    let isSeller : Bool := gs.auction.sellerId == some currentPlayerId
    let hasBid : Bool :=
      match getKey gs.auction.bids currentPlayerId with
      | some b => b != 0
      | none => false
    if isSeller || hasBid then gs
    else if bidAmount ≤ (gs.auction.currentBid.getD 0) then gs
    else if bidAmount > me.money then gs
    else
      let newAuction : AuctionState :=
        { gs.auction with
          bids := putKey gs.auction.bids currentPlayerId bidAmount
          bidCount := gs.auction.bidCount + 1
          currentBid := some bidAmount
          highestBidder := some currentPlayerId }
      { gs with auction := newAuction }

/-- First entry of `Object.entries(bids).sort(([, a], [, b]) => b - a)`:
    JS `Array.prototype.sort` is stable, so this is the first entry (in key
    insertion order) whose bid value is maximal. -/
def maxBidEntry : List (PlayerId × ℚ) → Option (PlayerId × ℚ)
  | [] => none
  | e :: rest =>
    match maxBidEntry rest with
    | none => some e
    | some m => if m.2 > e.2 then some m else some e

/-- `endAuction` of the `AuctionModal`: settlement recomputes the winner from
    the full `bids` ledger of the latest game document; `currentBid` and
    `highestBidder` are not consulted.  The winner's money is written as
    `winnerCurrentMoney - finalBidAmount`; a seller receives the bid minus a
    `Math.floor(bid * 0.1)` tax, which goes to the vacation pot when the
    `taxInVacationPot` setting is on. -/
def endAuction (gs : GameState) : GameState :=
  match gs.auction.propertyId with
  | none => gs
  | some propId =>
    match getKey initialBoardState propId with
    | none => gs
    | some property =>
      let gs0 := { gs with auction := { gs.auction with active := false } }
      match maxBidEntry gs.auction.bids with
      | none => gs0
      | some (highestBidderId, finalBidAmount) =>
        match getKey gs.players highestBidderId, propertyTypeMap property.type with
        | some winner, some cat =>
          let newBoard := modKey gs0.board propId
            (fun ps => { ps with owner := some highestBidderId })
          let gs1 := { gs0 with board := newBoard }
          let gs2 := updatePlayer gs1 highestBidderId (fun p =>
            setArr { p with money := winner.money - finalBidAmount } cat
              (arrayUnion (getArr p cat) propId))
          match gs.auction.sellerId with
          | some sellerId =>
            let tax : ℚ := (⌊finalBidAmount * (1 / 10)⌋ : Int)
            let sellerGets := finalBidAmount - tax
            let gs3 := addMoney gs2 sellerId sellerGets
            if gs.settings.taxInVacationPot then
              { gs3 with vacationPot := gs3.vacationPot + tax }
            else gs3
          | none => gs2
        | _, _ => gs

/-! ### Trade protocol (`App.tsx`, `TradeModal`) -/

/-- The `forEach` over a trade side's property list inside `handleAcceptTrade`:
    each listed property whose static square exists and is ownable is removed
    from the giver's category array (`filter`), appended to the taker's
    (`push`), and its board `owner` is set to the taker's `id` field. -/
def moveProps (giver taker : Player) (board : List (PropertyId × PropertyState)) :
    List PropertyId → Player × Player × List (PropertyId × PropertyState)
  | [] => (giver, taker, board)
  | propId :: rest =>
    match (getKey initialBoardState propId).bind (fun sq => propertyTypeMap sq.type) with
    | none => moveProps giver taker board rest
    | some cat =>
      let giver := setArr giver cat ((getArr giver cat).filter (fun q => q ≠ propId))
      let taker := setArr taker cat (getArr taker cat ++ [propId])
      let board := modKey board propId (fun ps => { ps with owner := some taker.id })
      moveProps giver taker board rest

/-- `handleAcceptTrade` of the `TradeModal` (the body of the Firestore
    `runTransaction`: a thrown error aborts with no write). -/
def handleAcceptTrade (gs : GameState) (tradeId : String) : GameState :=
  match getKey gs.trades tradeId with
  | none => gs
  | some trade =>
    match getKey gs.players trade.fromPlayer, getKey gs.players trade.toPlayer with
    | some fromPlayer, some toPlayer =>
      if fromPlayer.money < trade.offer.money ∨ toPlayer.money < trade.request.money then gs
      else
        let fromPlayer := { fromPlayer with
          money := fromPlayer.money - trade.offer.money + trade.request.money }
        let toPlayer := { toPlayer with
          money := toPlayer.money + trade.offer.money - trade.request.money }
        let r1 := moveProps fromPlayer toPlayer gs.board trade.offer.properties
        let r2 := moveProps r1.2.1 r1.1 r1.2.2 trade.request.properties
        let players := setKey (setKey gs.players trade.fromPlayer r2.2.1) trade.toPlayer r2.1
        { gs with players := players, board := r2.2.2,
                  trades := removeKey gs.trades trade.id }
    | _, _ => gs

/-- `handleRejectTrade` of the `TradeModal`. -/
def handleRejectTrade (gs : GameState) (tradeId : String) : GameState :=
  match getKey gs.trades tradeId with
  | none => gs
  | some trade => { gs with trades := removeKey gs.trades trade.id }

/-! ### Turn state machine (`App.tsx`, `GameRoom`) -/

/-- `handleEndTurn`. -/
def handleEndTurn (gs : GameState) : GameState :=
  let pid := gs.currentPlayerTurn
  match getKey gs.players pid with
  | none => gs
  | some player =>
    if player.money < 0 then gs
    else
      let gs1 := updatePlayer gs pid (fun p => { p with doublesCount := 0 })
      let gs2 :=
        if player.inJail then
          if player.jailTurns ≥ 3 then
            updatePlayer gs1 pid (fun p => { p with inJail := false, jailTurns := 0 })
          else
            updatePlayer gs1 pid (fun p => { p with jailTurns := p.jailTurns + 1 })
        else gs1
      let gs3 :=
        if gs.turnOrder.length > 1 then
          let nextIdx :=
            match gs.turnOrder.indexOf? pid with
            | some i => (i + 1) % gs.turnOrder.length
            | none => 0
          { gs2 with currentPlayerTurn := gs.turnOrder.getD nextIdx pid }
        else gs2
      if player.onVacation then
        updatePlayer gs3 pid (fun p => { p with onVacation := false })
      else gs3

/-- `handleRollDice` (dice outcomes passed as parameters). -/
def handleRollDice (gs : GameState) (currentPlayerId : PlayerId) (die1 die2 : Nat) : GameState :=
  if gs.currentPlayerTurn ≠ currentPlayerId then gs
  else
    match getKey gs.players currentPlayerId with
    | none => gs
    | some me =>
      let diceRoll := die1 + die2
      if me.inJail then
        if die1 = die2 then
          updatePlayer gs currentPlayerId (fun p =>
            { p with inJail := false, jailTurns := 0,
                     position := (me.position + diceRoll) % 56,
                     animatedPosition := (me.position + diceRoll) % 56 })
        else handleEndTurn gs
      else if me.onVacation then gs
      else
        let doublesCount := if die1 = die2 then me.doublesCount + 1 else 0
        if doublesCount = 3 then goToJail gs currentPlayerId
        else
          let oldPosition := me.position
          let newPosition := (oldPosition + diceRoll) % 56
          let gs1 := updatePlayer gs currentPlayerId (fun p =>
            { p with position := newPosition, animatedPosition := newPosition,
                     doublesCount := doublesCount })
          if newPosition < oldPosition ∧ newPosition ≠ 0 ∧ me.inJail = false then
            addMoney gs1 currentPlayerId 200
          else gs1

/-- Which control the post-roll UI offers in place of rolling again. -/
inductive TurnControl
  | endTurnButton
  | continueButton
  deriving DecidableEq, Repr

/-- The post-roll decision control of the `GameRoom` render (`App.tsx`): after
    the acting player has rolled (not in jail, not on vacation), the End Turn
    button is rendered only when `doublesCount === 0`; otherwise a Continue
    button is rendered whose handler merely re-enables rolling
    (`setHasRolled(false)`) and never calls `handleEndTurn`, so the same
    player keeps the turn. -/
def postRollControl (me : Player) : TurnControl :=
  if me.doublesCount = 0 then .endTurnButton else .continueButton

/-! ### Card resolver and landing resolution (`gameLogic.tsx`) -/

/-- Set a player's `position`/`animatedPosition` pair. -/
def setPos (gs : GameState) (pid : PlayerId) (pos : Nat) : GameState :=
  updatePlayer gs pid (fun p => { p with position := pos, animatedPosition := pos })

/-- Tail of `handleCardAction`: route `moneyToPot` into the vacation pot when
    the `taxInVacationPot` setting is on. -/
def potGate (gs : GameState) (moneyToPot : ℚ) : GameState :=
  if moneyToPot > 0 ∧ gs.settings.taxInVacationPot = true then
    { gs with vacationPot := gs.vacationPot + moneyToPot }
  else gs

/-- The "nearest airport / utility" loop of cards S02/S03: smallest forward
    wrap-around distance, initial candidate `first` at distance 56. -/
def nearestForward (position : Nat) (squares : List Int) (first : Int) : Nat :=
  ((squares.foldl (fun acc sq =>
      let distance : Int :=
        if sq - (position : Int) < 0 then sq - (position : Int) + 56
        else sq - (position : Int)
      if distance < acc.2 then (sq, distance) else acc)
    (first, (56 : Int))).1).toNat

/-- Transfer `rentAmount` from `payerId` to `ownerId` (the inline rent writes
    of cards S02/S03). -/
def transferRent (gs : GameState) (payerId ownerId : PlayerId) (rentAmount : ℚ) : GameState :=
  addMoney (addMoney gs payerId (-rentAmount)) ownerId rentAmount

/-- A pending resolution step: a drawn card to apply, or a landing to resolve. -/
inductive Act
  | card (playerId : PlayerId) (cardId : String)
  | landing (playerId : PlayerId) (newPosition : Nat) (diceRoll : Int)

/-- `handleCardAction` / `handleLandingOnSquare`, which are mutually recursive
    in the source (card S06 re-runs landing resolution; treasure/surprise
    squares draw a card).  The recursion is bounded by `fuel` (the source can
    in principle chain draws indefinitely through random re-draws); random
    draws are supplied by the oracles `cardAt`/`diceAt`, indexed by the
    remaining fuel so that each nested draw reads its own slot.  In card S17
    the second write to the player's money key overwrites the first, so the
    $200 GO bonus is lost whenever the vacation-pot payout is written — this
    is modelled faithfully (last write to a key wins). -/
def resolveF (cardAt : Nat → String) (diceAt : Nat → Int) :
    Nat → Act → GameState → GameState
  | 0, _, gs => gs
  | fuel + 1, .card playerId cardId, gs =>
    match getKey gs.players playerId with
    | none => gs
    | some player =>
      match cardId with
      | "TC01" | "S05" =>
        if player.getOutOfJailFreeCards < 1 then
          potGate (updatePlayer gs playerId (fun p =>
            { p with getOutOfJailFreeCards := p.getOutOfJailFreeCards + 1 })) 0
        else potGate gs 0
      | "TC02" | "S01" => potGate (addMoney (setPos gs playerId 0) playerId 300) 0
      | "TC03" => potGate (addMoney gs playerId 200) 0
      | "TC04" => potGate (addMoney gs playerId (-50)) 50
      | "TC05" => potGate (addMoney gs playerId 50) 0
      | "TC06" | "S07" => goToJail gs playerId
      | "TC07" =>
        let n := gs.players.length
        let gs1 := { gs with players := gs.players.map (fun e =>
          if e.1 == playerId then e else (e.1, { e.2 with money := e.2.money - 50 })) }
        addMoney gs1 playerId (50 * ((n - 1 : Nat) : ℚ))
      | "TC08" => potGate (addMoney gs playerId 100) 0
      | "TC09" => potGate (addMoney gs playerId 20) 0
      | "TC10" =>
        let n := gs.players.length
        let gs1 := { gs with players := gs.players.map (fun e =>
          if e.1 == playerId then e else (e.1, { e.2 with money := e.2.money - 10 })) }
        addMoney gs1 playerId (10 * ((n - 1 : Nat) : ℚ))
      | "TC11" => potGate (addMoney gs playerId 100) 0
      | "TC12" => potGate (addMoney gs playerId (-100)) 100
      | "TC13" => potGate (addMoney gs playerId (-150)) 150
      | "TC14" => potGate (addMoney gs playerId 25) 0
      | "TC15" =>
        let cost : ℚ := (player.houses : ℚ) * 40 + (player.hotels : ℚ) * 115
        potGate (addMoney gs playerId (-cost)) cost
      | "TC16" => potGate (addMoney gs playerId 10) 0
      | "TC17" => potGate (addMoney gs playerId 100) 0
      | "TC18" =>
        let cost : ℚ := (player.houses : ℚ) * 120
        potGate (addMoney gs playerId (-cost)) cost
      | "TC19" =>
        let cost : ℚ := (player.houses : ℚ) * 50 + (player.hotels : ℚ) * 125
        potGate (addMoney gs playerId (-cost)) cost
      | "TC20" => potGate (addMoney gs playerId ((player.houses : ℚ) * 20)) 0
      | "TC21" =>
        let pot := gs.vacationPot
        let gs1 := addMoney (setPos gs playerId 28) playerId pot
        potGate { gs1 with vacationPot := 0 } 0
      | "TC22" => potGate (addMoney gs playerId 100) 0
      | "TC23" => potGate (addMoney gs playerId 150) 0
      | "TC24" =>
        let gs1 := if player.position > 43 then addMoney gs playerId 200 else gs
        potGate (setPos gs1 playerId 43) 0
      | "S02" =>
        let nearestAirport := nearestForward player.position [5, 16, 31, 45] 5
        let gs1 := setPos gs playerId nearestAirport
        match getKey gs.board (toString nearestAirport) with
        | none => gs1
        | some airportState =>
          match airportState.owner with
          | none => gs1
          | some ownerId =>
            if ownerId == playerId then gs1
            else
              match getKey gs.players ownerId, getKey initialBoardState (toString nearestAirport) with
              | some owner, some sq =>
                let rentAmount := rentEntry sq ((owner.airports.length : Int) - 1) * 2
                transferRent gs1 playerId ownerId rentAmount
              | _, _ => gs1
      | "S03" =>
        let nearestUtility := nearestForward player.position [12, 26] 12
        let gs1 := setPos gs playerId nearestUtility
        match getKey gs.board (toString nearestUtility) with
        | none => gs1
        | some utilityState =>
          match utilityState.owner with
          | none => gs1
          | some ownerId =>
            if ownerId == playerId then gs1
            else
              let rentAmount : ℚ := (diceAt fuel : ℚ) * 10
              transferRent gs1 playerId ownerId rentAmount
      | "S04" => potGate (addMoney gs playerId 50) 0
      | "S06" =>
        let newPosition := (player.position + 53) % 56
        let gs1 := setPos gs playerId newPosition
        resolveF cardAt diceAt fuel (.landing playerId newPosition 0) gs1
      | "S08" =>
        let cost : ℚ := (player.houses : ℚ) * 25 + (player.hotels : ℚ) * 100
        potGate (addMoney gs playerId (-cost)) cost
      | "S09" => potGate (addMoney gs playerId (-15)) 15
      | "S10" =>
        let gs1 := if player.position > 5 then addMoney gs playerId 200 else gs
        potGate (setPos gs1 playerId 5) 0
      | "S11" =>
        let n := gs.players.length
        let gs1 := { gs with players := gs.players.map (fun e =>
          if e.1 == playerId then e else (e.1, { e.2 with money := e.2.money + 50 })) }
        addMoney gs1 playerId (-(50 * ((n - 1 : Nat) : ℚ)))
      | "S12" => potGate (addMoney gs playerId 150) 0
      | "S13" => potGate (addMoney gs playerId 100) 0
      | "S14" => potGate (addMoney gs playerId ((player.houses : ℚ) * 75)) 0
      | "S15" =>
        potGate (addMoney gs playerId ((player.houses : ℚ) * 30 + (player.hotels : ℚ) * 100)) 0
      | "S16" =>
        let cost : ℚ := (player.houses : ℚ) * 30
        potGate (addMoney gs playerId (-cost)) cost
      | "S17" =>
        let pot := gs.vacationPot
        let gs1 := addMoney (setPos gs playerId 53) playerId pot
        potGate { gs1 with vacationPot := 0 } 0
      | "S18" => potGate gs 100
      | "S19" => potGate (setPos gs playerId 28) 0
      | "S20" =>
        let gs1 := if player.position > 33 then addMoney gs playerId 200 else gs
        potGate (setPos gs1 playerId 33) 0
      | _ => gs
  | fuel + 1, .landing playerId newPosition diceRoll, gs =>
    match getKey initialBoardState (toString newPosition) with
    | none => gs
    | some square =>
      match getKey gs.players playerId with
      | none => gs
      | some player =>
        match square.type with
        | .go => addMoney gs playerId 300
        | .city | .airport | .harbour | .company =>
          match getKey gs.board (toString newPosition) with
          | none => gs
          | some st =>
            match st.owner with
            | none => gs
            | some ownerId =>
              if ownerId == playerId then gs
              else handlePayment gs playerId (toString newPosition) diceRoll
        | .tax =>
          let taxAmount : ℚ :=
            if square.amount < 1 then ((⌊player.money * square.amount⌋ : Int) : ℚ)
            else square.amount
          let gs1 := addMoney gs playerId (-taxAmount)
          if gs.settings.taxInVacationPot then
            { gs1 with vacationPot := gs1.vacationPot + taxAmount }
          else gs1
        | .vacation =>
          let pot := gs.vacationPot
          let gs1 := updatePlayer gs playerId (fun p =>
            { p with money := p.money + pot, onVacation := true })
          { gs1 with vacationPot := 0 }
        | .goToJailSquare => goToJail gs playerId
        | .treasure => resolveF cardAt diceAt fuel (.card playerId (cardAt fuel)) gs
        | .surprise => resolveF cardAt diceAt fuel (.card playerId (cardAt fuel)) gs
        | .jail => gs

/-- `handleCardAction` with a recursion budget (see `resolveF`). -/
def handleCardAction (cardAt : Nat → String) (diceAt : Nat → Int) (fuel : Nat)
    (gs : GameState) (playerId : PlayerId) (cardId : String) : GameState :=
  resolveF cardAt diceAt (fuel + 1) (.card playerId cardId) gs

/-! ### Observation helpers -/

/-- The money of player `pid`, when present. -/
def moneyAt (gs : GameState) (pid : PlayerId) : Option ℚ :=
  (getKey gs.players pid).map Player.money

/-- The position of player `pid`, when present. -/
def positionAt (gs : GameState) (pid : PlayerId) : Option Nat :=
  (getKey gs.players pid).map Player.position

/-- The "get out of jail free" card count of player `pid`, when present. -/
def jailCardsAt (gs : GameState) (pid : PlayerId) : Option Int :=
  (getKey gs.players pid).map Player.getOutOfJailFreeCards

/-- The dynamic state of board square `k`, when present. -/
def boardAt (gs : GameState) (k : PropertyId) : Option PropertyState :=
  getKey gs.board k

/-! ### Association-list lemmas -/

theorem getKey_nil (k : String) : getKey ([] : List (String × α)) k = none := rfl

theorem getKey_cons (k₀ : String) (v : α) (t : List (String × α)) (k : String) :
    getKey ((k₀, v) :: t) k = if k₀ == k then some v else getKey t k := by
  by_cases h : k₀ == k <;> simp [getKey, List.find?, h]

theorem getKey_mem {l : List (String × α)} {k : String} {v : α}
    (h : getKey l k = some v) : (k, v) ∈ l := by
  induction l with
  | nil => simp [getKey] at h
  | cons e t ih =>
    rcases e with ⟨k₀, v₀⟩
    rw [getKey_cons] at h
    by_cases hk : k₀ == k
    · simp [hk] at h
      subst h
      simp_all
    · simp [hk] at h
      exact List.mem_cons_of_mem _ (ih h)

theorem getKey_map_pair (l : List (String × α)) (g : String → α → α) (k' : String) :
    getKey (l.map (fun e => (e.1, g e.1 e.2))) k' = (getKey l k').map (g k') := by
  induction l with
  | nil => rfl
  | cons e t ih =>
    obtain ⟨k₀, v₀⟩ := e
    by_cases h : k₀ == k'
    · have h' : k₀ = k' := by simpa using h
      subst h'
      simp [List.map_cons, getKey_cons, h]
    · simp [List.map_cons, getKey_cons, h, ih]

theorem modKey_eq_map (l : List (String × α)) (k : String) (f : α → α) :
    modKey l k f = l.map (fun e => (e.1, if e.1 == k then f e.2 else e.2)) := by
  simp only [modKey]
  refine List.map_congr_left ?_
  intro e _
  by_cases h : e.1 == k <;> simp [h]

theorem getKey_modKey (l : List (String × α)) (k k' : String) (f : α → α) :
    getKey (modKey l k f) k' =
      if k' = k then (getKey l k').map f else getKey l k' := by
  have hmap := getKey_map_pair l (fun a b => if a == k then f b else b) k'
  rw [modKey_eq_map, hmap]
  by_cases h : k' = k
  · subst h
    simp
  · have hb : (k' == k) = false := by simp [h]
    simp only [hb, if_neg h, Bool.false_eq_true, if_false]
    cases getKey l k' <;> simp

theorem getKey_setKey (l : List (String × α)) (k k' : String) (v : α) :
    getKey (setKey l k v) k' =
      if k' = k then (getKey l k').map (fun _ => v) else getKey l k' := by
  have h : setKey l k v = modKey l k (fun _ => v) := by
    simp only [setKey, modKey]
    refine List.map_congr_left ?_
    intro e _
    by_cases hk : e.1 == k
    · have : e.1 = k := by simpa using hk
      simp [hk, this]
    · simp [hk]
  rw [h, getKey_modKey]

theorem getKey_filter_ne (l : List (String × α)) (k k' : String) :
    getKey (l.filter (fun e => e.1 != k)) k' = if k' = k then none else getKey l k' := by
  induction l with
  | nil => simp [getKey]
  | cons e t ih =>
    obtain ⟨k₀, v₀⟩ := e
    by_cases h : k₀ = k
    · subst h
      by_cases h2 : k' = k₀
      · subst h2
        simp [List.filter_cons, ih]
      · have e2 : (k₀ == k') = false := by
          simp only [beq_eq_false_iff_ne, ne_eq]
          exact fun hh => h2 hh.symm
        simp [List.filter_cons, ih, h2, getKey_cons, e2]
    · have e1 : (k₀ != k) = true := by simp [h]
      by_cases h2 : k' = k
      · subst h2
        have e2 : (k₀ == k') = false := by
          simp only [beq_eq_false_iff_ne, ne_eq]
          exact h
        simp [List.filter_cons, e1, getKey_cons, e2, ih]
      · simp [List.filter_cons, e1, getKey_cons, ih, h2]

theorem getKey_removeKey (l : List (String × α)) (k k' : String) :
    getKey (removeKey l k) k' = if k' = k then none else getKey l k' := by
  simp only [removeKey]
  exact getKey_filter_ne l k k'

theorem updatePlayer_currentPlayerTurn (gs : GameState) (pid : PlayerId) (f : Player → Player) :
    (updatePlayer gs pid f).currentPlayerTurn = gs.currentPlayerTurn := rfl

theorem updatePlayer_players (gs : GameState) (pid : PlayerId) (f : Player → Player) :
    (updatePlayer gs pid f).players = modKey gs.players pid f := rfl

theorem getKey_updatePlayer (gs : GameState) (pid pid' : PlayerId) (f : Player → Player) :
    getKey (updatePlayer gs pid f).players pid' =
      if pid' = pid then (getKey gs.players pid').map f else getKey gs.players pid' := by
  rw [updatePlayer_players, getKey_modKey]

end Monopoly

namespace Monopoly

/-! ### Concrete fixtures -/

/-- A settings record (auctions/mortgage on, jail rent off, tax to pot on). -/
def settings0 : GameSettings :=
  { allowAuctions := true, allowOwnedPropertyAuctions := true, allowMortgage := true,
    rentInJail := false, taxInVacationPot := true, doubleRentOnMonopoly := true,
    increasingJailFine := false }

/-- The idle auction sub-object. -/
def emptyAuction : AuctionState :=
  { active := false, propertyId := none, currentBid := none, highestBidder := none,
    bidCount := 0, sellerId := none, bids := [] }

/-- A fresh player record. -/
def mkPlayer (id : String) (money : ℚ) : Player :=
  { id := id, money := money, position := 0, animatedPosition := 0,
    cities := [], airports := [], harbours := [], companies := [],
    inJail := false, jailTurns := 0, doublesCount := 0, onVacation := false,
    getOutOfJailFreeCards := 0, houses := 0, hotels := 0 }

/-- An in-progress game over the given players and dynamic board. -/
def mkState (players : List (PlayerId × Player)) (board : List (PropertyId × PropertyState)) :
    GameState :=
  { hostId := "p1", status := .inProgress, board := board, settings := settings0,
    players := players, turnOrder := players.map (fun e => e.1),
    currentPlayerTurn := "p1", vacationPot := 0, auction := emptyAuction,
    trades := [], winner := none, jailCount := [] }

/-- Two-player game in which "p1" has just rolled doubles once and owes nothing. -/
def gsDoubles : GameState :=
  mkState [("p1", { mkPlayer "p1" 0 with doublesCount := 1 }), ("p2", mkPlayer "p2" 1500)] []

/-- C3 counterexample: in `gsDoubles` the acting player "p1" has
    `doublesCount = 1 > 0`, non-negative money and two players in `turnOrder`,
    yet `handleEndTurn` moves `currentPlayerTurn` to "p2" — the claim that
    `endTurn` leaves the turn with the same player is false on the code. -/
theorem handleEndTurn_advances_on_doubles_cex :
    gsDoubles.turnOrder.length = 2 ∧
    (getKey gsDoubles.players "p1").map Player.doublesCount = some 1 ∧
    moneyAt gsDoubles "p1" = some 0 ∧
    gsDoubles.currentPlayerTurn = "p1" ∧
    (handleEndTurn gsDoubles).currentPlayerTurn = "p2" := by
  decide

end Monopoly

namespace Monopoly

/-- C3 (amended): when the acting player has `doublesCount > 0` the post-roll
    UI offers Continue (never invoking `handleEndTurn`), so the same player
    keeps the turn; `handleEndTurn` itself, whenever it runs with at least two
    players in `turnOrder` and a non-negative balance, always advances
    `currentPlayerTurn` to the next entry of `turnOrder`, regardless of
    `doublesCount`. -/
theorem endTurn_doubles_decision (me : Player) (gs : GameState) (player : Player) (i : Nat)
    (hdc : 0 < me.doublesCount)
    (hp : getKey gs.players gs.currentPlayerTurn = some player)
    (hm : ¬ player.money < 0)
    (hlen : 1 < gs.turnOrder.length)
    (hidx : gs.turnOrder.indexOf? gs.currentPlayerTurn = some i) :
    postRollControl me = .continueButton ∧
    (handleEndTurn gs).currentPlayerTurn =
      gs.turnOrder.getD ((i + 1) % gs.turnOrder.length) gs.currentPlayerTurn := by
  constructor
  · unfold postRollControl
    rw [if_neg]
    omega
  · simp only [handleEndTurn, hp, hidx, if_neg hm]
    split_ifs <;>
      simp_all [updatePlayer_currentPlayerTurn]

end Monopoly

namespace Monopoly

/-- Witness for `endTurn_doubles_decision` at the concrete state `gsDoubles`. -/
theorem endTurn_doubles_decision_witness :
    postRollControl { mkPlayer "p1" 0 with doublesCount := 1 } = .continueButton ∧
    (handleEndTurn gsDoubles).currentPlayerTurn =
      gsDoubles.turnOrder.getD ((0 + 1) % gsDoubles.turnOrder.length)
        gsDoubles.currentPlayerTurn :=
  endTurn_doubles_decision { mkPlayer "p1" 0 with doublesCount := 1 } gsDoubles
    { mkPlayer "p1" 0 with doublesCount := 1 } 0
    (by decide) (by decide) (by decide) (by decide) (by decide)

end Monopoly

namespace Monopoly

/-- Two-player game with "p1" six squares short of GO. -/
def gsRoll : GameState :=
  mkState [("p1", { mkPlayer "p1" 1500 with position := 50, animatedPosition := 50 }),
           ("p2", mkPlayer "p2" 1500)] []

/-- C4 counterexample: a non-jailing roll of 2+4 from position 50 lands
    exactly on GO (`newPosition = 0 < 50`), yet `handleRollDice` credits
    nothing (the `newPosition !== 0` conjunct excludes landing on GO), so
    "credited $200 iff new position < old position, including new position
    exactly 0" is false on the code. -/
theorem rollDice_goCredit_cex :
    (50 + (2 + 4)) % 56 = 0 ∧
    gsRoll.currentPlayerTurn = "p1" ∧
    moneyAt (handleRollDice gsRoll "p1" 2 4) "p1" = some 1500 ∧
    positionAt (handleRollDice gsRoll "p1" 2 4) "p1" = some 0 := by
  decide

/-- C4 (amended): on a non-jailing roll (the updated doubles count is not 3)
    by the player whose turn it is, starting neither in jail nor on vacation,
    the player's money is credited exactly $200 iff the new position
    `(old + dice) % 56` is strictly below the old one AND is not exactly 0;
    landing exactly on GO through the roll credits nothing here (the GO
    landing bonus is handled separately by landing resolution, as $300). -/
theorem rollDice_goCredit (gs : GameState) (pid : PlayerId) (die1 die2 : Nat) (me : Player)
    (hturn : gs.currentPlayerTurn = pid)
    (hp : getKey gs.players pid = some me)
    (hjail : me.inJail = false)
    (hvac : me.onVacation = false)
    (hnj : ¬ (if die1 = die2 then me.doublesCount + 1 else 0) = 3) :
    moneyAt (handleRollDice gs pid die1 die2) pid =
      some (me.money +
        (if (me.position + (die1 + die2)) % 56 < me.position ∧
            (me.position + (die1 + die2)) % 56 ≠ 0
         then 200 else 0)) ∧
    positionAt (handleRollDice gs pid die1 die2) pid =
      some ((me.position + (die1 + die2)) % 56) := by
  subst hturn
  simp only [handleRollDice]
  rw [if_neg (show ¬ gs.currentPlayerTurn ≠ gs.currentPlayerTurn from fun h => h rfl), hp]
  dsimp only
  rw [hjail, if_neg Bool.false_ne_true, hvac, if_neg Bool.false_ne_true, if_neg hnj]
  constructor
  · by_cases hc : (me.position + (die1 + die2)) % 56 < me.position ∧
        (me.position + (die1 + die2)) % 56 ≠ 0
    · rw [if_pos ⟨hc.1, hc.2, rfl⟩, if_pos hc]
      simp [moneyAt, addMoney, getKey_updatePlayer, hp]
    · rw [if_neg (fun hh => hc ⟨hh.1, hh.2.1⟩), if_neg hc]
      simp [moneyAt, getKey_updatePlayer, hp]
  · by_cases hc : (me.position + (die1 + die2)) % 56 < me.position ∧
        (me.position + (die1 + die2)) % 56 ≠ 0
    · rw [if_pos ⟨hc.1, hc.2, rfl⟩]
      simp [positionAt, addMoney, getKey_updatePlayer, hp]
    · rw [if_neg (fun hh => hc ⟨hh.1, hh.2.1⟩)]
      simp [positionAt, getKey_updatePlayer, hp]

/-- Witness for `rollDice_goCredit`: a 1+2 roll from position 50 (no wrap,
    no credit). -/
theorem rollDice_goCredit_witness :
    moneyAt (handleRollDice gsRoll "p1" 1 2) "p1" =
      some ((1500 : ℚ) +
        (if (50 + (1 + 2)) % 56 < 50 ∧ (50 + (1 + 2)) % 56 ≠ 0 then 200 else 0)) ∧
    positionAt (handleRollDice gsRoll "p1" 1 2) "p1" = some ((50 + (1 + 2)) % 56) :=
  rollDice_goCredit gsRoll "p1" 1 2
    { mkPlayer "p1" 1500 with position := 50, animatedPosition := 50 }
    (by decide) (by decide) (by decide) (by decide) (by decide)

end Monopoly

namespace Monopoly

theorem getKey_map_cond (l : List (String × α)) (P : α → Bool) (g : α → α) (k : String) :
    getKey (l.map (fun e => if P e.2 then (e.1, g e.2) else e)) k =
      (getKey l k).map (fun v => if P v then g v else v) := by
  have h1 : (l.map (fun e => if P e.2 then (e.1, g e.2) else e)) =
      l.map (fun e => (e.1, if P e.2 then g e.2 else e.2)) := by
    refine List.map_congr_left ?_
    intro e _
    by_cases h : P e.2 <;> simp [h]
  rw [h1]
  exact getKey_map_pair l (fun _ b => if P b then g b else b) k

/-- C8: bankruptcy returns every square owned by the bankrupt player to the
    bank (owner cleared, improvements and mortgage reset), removes the player
    record, declares the sole remaining player the winner with status
    `finished`, and leaves status and winner untouched when two or more
    players remain. -/
theorem handleBankruptcy_spec (gs : GameState) (pid : PlayerId)
    (hn : 2 ≤ gs.players.length) :
    (∀ k ps, getKey gs.board k = some ps → ps.owner = some pid →
       getKey (handleBankruptcy gs pid).board k =
         some { owner := none, houses := 0, hotels := 0, mortgaged := false }) ∧
    getKey (handleBankruptcy gs pid).players pid = none ∧
    (∀ w, (keysOf gs.players).filter (fun q => q ≠ pid) = [w] →
       (handleBankruptcy gs pid).status = .finished ∧
       (handleBankruptcy gs pid).winner = some w) ∧
    (2 ≤ ((keysOf gs.players).filter (fun q => q ≠ pid)).length →
       (handleBankruptcy gs pid).status = gs.status ∧
       (handleBankruptcy gs pid).winner = gs.winner) := by
  have hne : ¬ keysOf gs.players = [pid] := by
    intro h
    have : (keysOf gs.players).length = 1 := by rw [h]; rfl
    simp [keysOf] at this
    omega
  simp only [handleBankruptcy, if_neg hne]
  split
  case _ winnerId heq =>
    refine ⟨?_, ?_, ?_, ?_⟩
    · intro k ps hk howner
      have := getKey_map_cond gs.board (fun v => v.owner == some pid)
        (fun v => { v with owner := none, houses := 0, hotels := 0, mortgaged := false }) k
      simp only [this, hk]
      simp [howner]
    · rw [getKey_removeKey, if_pos rfl]
    · intro w hw
      rw [heq] at hw
      cases hw
      exact ⟨rfl, rfl⟩
    · intro hlen
      rw [heq] at hlen
      simp at hlen
  case _ h2 =>
    refine ⟨?_, ?_, ?_, ?_⟩
    · intro k ps hk howner
      have := getKey_map_cond gs.board (fun v => v.owner == some pid)
        (fun v => { v with owner := none, houses := 0, hotels := 0, mortgaged := false }) k
      simp only [this, hk]
      simp [howner]
    · rw [getKey_removeKey, if_pos rfl]
    · intro w hw
      exact absurd hw (h2 w)
    · intro _
      exact ⟨rfl, rfl⟩

/-- Bankruptcy fixture: three players, "p1" owning two squares. -/
def gsBank3 : GameState :=
  mkState [("p1", { mkPlayer "p1" 100 with cities := ["1", "3"] }),
           ("p2", mkPlayer "p2" 500), ("p3", mkPlayer "p3" 700)]
    [("1", { owner := some "p1", houses := 2, hotels := 0, mortgaged := false }),
     ("3", { owner := some "p1", houses := 0, hotels := 0, mortgaged := true }),
     ("6", { owner := some "p2", houses := 0, hotels := 0, mortgaged := false })]

/-- Witness for `handleBankruptcy_spec` at the concrete state `gsBank3`. -/
theorem handleBankruptcy_spec_witness :
    (∀ k ps, getKey gsBank3.board k = some ps → ps.owner = some "p1" →
       getKey (handleBankruptcy gsBank3 "p1").board k =
         some { owner := none, houses := 0, hotels := 0, mortgaged := false }) ∧
    getKey (handleBankruptcy gsBank3 "p1").players "p1" = none ∧
    (∀ w, (keysOf gsBank3.players).filter (fun q => q ≠ "p1") = [w] →
       (handleBankruptcy gsBank3 "p1").status = .finished ∧
       (handleBankruptcy gsBank3 "p1").winner = some w) ∧
    (2 ≤ ((keysOf gsBank3.players).filter (fun q => q ≠ "p1")).length →
       (handleBankruptcy gsBank3 "p1").status = gsBank3.status ∧
       (handleBankruptcy gsBank3 "p1").winner = gsBank3.winner) :=
  handleBankruptcy_spec gsBank3 "p1" (by decide)

end Monopoly

namespace Monopoly

theorem setArr_money (p : Player) (c : OwnCat) (l : List PropertyId) :
    (setArr p c l).money = p.money := by
  cases c <;> rfl

theorem setArr_id (p : Player) (c : OwnCat) (l : List PropertyId) :
    (setArr p c l).id = p.id := by
  cases c <;> rfl

theorem maxBidEntry_ne_none (x : PlayerId × ℚ) (t : List (PlayerId × ℚ)) :
    maxBidEntry (x :: t) ≠ none := by
  simp only [maxBidEntry]
  cases hm : maxBidEntry t with
  | none => simp
  | some m =>
    dsimp only
    split_ifs <;> simp

theorem maxBidEntry_mem {l : List (PlayerId × ℚ)} {e : PlayerId × ℚ}
    (h : maxBidEntry l = some e) : e ∈ l := by
  induction l generalizing e with
  | nil => simp [maxBidEntry] at h
  | cons x t ih =>
    simp only [maxBidEntry] at h
    cases hm : maxBidEntry t with
    | none =>
      simp only [hm] at h
      cases h
      exact List.mem_cons_self x t
    | some m =>
      simp only [hm] at h
      split_ifs at h with hgt
      · cases h
        exact List.mem_cons_of_mem x (ih hm)
      · cases h
        exact List.mem_cons_self x t

theorem maxBidEntry_isMax {l : List (PlayerId × ℚ)} {e : PlayerId × ℚ}
    (h : maxBidEntry l = some e) : ∀ x ∈ l, x.2 ≤ e.2 := by
  induction l generalizing e with
  | nil => simp
  | cons x t ih =>
    intro y hy
    simp only [maxBidEntry] at h
    cases hm : maxBidEntry t with
    | none =>
      simp only [hm] at h
      cases h
      rcases List.mem_cons.mp hy with h1 | h1
      · exact le_of_eq (congrArg Prod.snd h1)
      · cases t with
        | nil => simp at h1
        | cons a s => exact absurd hm (maxBidEntry_ne_none a s)
    | some m =>
      simp only [hm] at h
      split_ifs at h with hgt
      · cases h
        rcases List.mem_cons.mp hy with h1 | h1
        · subst h1
          exact le_of_lt hgt
        · exact ih hm y h1
      · cases h
        rcases List.mem_cons.mp hy with h1 | h1
        · exact le_of_eq (congrArg Prod.snd h1)
        · exact le_trans (ih hm y h1) (not_lt.mp hgt)

/-- Replace the last-written `currentBid` / `highestBidder` fields of the
    auction sub-object (the fields racing bidders overwrite). -/
def withStaleFields (gs : GameState) (c : Option ℚ) (hb : Option PlayerId) : GameState :=
  { gs with auction := { gs.auction with currentBid := c, highestBidder := hb } }

/-- C2: auction settlement awards the property to a bidder whose entry in the
    full `bids` ledger is maximal, debits that bidder exactly that maximal
    amount, and produces the same outcome whatever the last-written
    `currentBid`/`highestBidder` fields hold. -/
theorem endAuction_spec (gs : GameState) (propId : PropertyId) (property : BoardSquare)
    (cat : OwnCat) (w : PlayerId) (amt : ℚ) (winner : Player)
    (hp : gs.auction.propertyId = some propId)
    (hsq : getKey initialBoardState propId = some property)
    (hcat : propertyTypeMap property.type = some cat)
    (hmax : maxBidEntry gs.auction.bids = some (w, amt))
    (hw : getKey gs.players w = some winner)
    (hsell : gs.auction.sellerId ≠ some w) :
    (w, amt) ∈ gs.auction.bids ∧
    (∀ x ∈ gs.auction.bids, x.2 ≤ amt) ∧
    boardAt (endAuction gs) propId =
      (boardAt gs propId).map (fun ps => { ps with owner := some w }) ∧
    moneyAt (endAuction gs) w = some (winner.money - amt) ∧
    (∀ c hb, endAuction (withStaleFields gs c hb) = withStaleFields (endAuction gs) c hb) := by
  refine ⟨maxBidEntry_mem hmax, maxBidEntry_isMax hmax, ?_, ?_, ?_⟩
  · simp only [endAuction, hp, hsq, hcat, hmax, hw]
    cases hs : gs.auction.sellerId with
    | none =>
      simp [boardAt, updatePlayer, getKey_modKey]
    | some s =>
      by_cases hpot : gs.settings.taxInVacationPot = true <;>
        simp [hpot, boardAt, addMoney, updatePlayer, getKey_modKey]
  · simp only [endAuction, hp, hsq, hcat, hmax, hw]
    cases hs : gs.auction.sellerId with
    | none =>
      simp [moneyAt, updatePlayer, getKey_modKey, hw, setArr_money]
    | some s =>
      have hsw : ¬ w = s := by
        intro h
        exact hsell (by rw [hs, h])
      by_cases hpot : gs.settings.taxInVacationPot = true <;>
        simp [hpot, moneyAt, addMoney, updatePlayer, getKey_modKey, hw, setArr_money, hsw]
  · intro c hb
    simp only [endAuction, withStaleFields, hp, hsq, hcat, hmax, hw]
    cases hs : gs.auction.sellerId with
    | none => rfl
    | some s =>
      cases hpot : gs.settings.taxInVacationPot <;>
        simp only [hpot, Bool.false_eq_true, if_false, if_true] <;> rfl

end Monopoly

namespace Monopoly

/-- Auction fixture: three bidders; the stale `currentBid`/`highestBidder`
    fields record the out-of-order last write ("c", 40) while the full ledger
    contains a higher bid by "b". -/
def gsAuction : GameState :=
  { mkState [("a", mkPlayer "a" 1000), ("b", mkPlayer "b" 1000), ("c", mkPlayer "c" 1000)]
      [("5", { owner := none, houses := 0, hotels := 0, mortgaged := false })] with
    auction := { active := true, propertyId := some "5", currentBid := some 40,
                 highestBidder := some "c", bidCount := 3, sellerId := none,
                 bids := [("a", 30), ("b", 50), ("c", 40)] } }

/-- Witness for `endAuction_spec` at `gsAuction`: "b" wins at 50 even though
    the last-written fields name "c" at 40. -/
theorem endAuction_spec_witness :
    ("b", (50 : ℚ)) ∈ gsAuction.auction.bids ∧
    (∀ x ∈ gsAuction.auction.bids, x.2 ≤ (50 : ℚ)) ∧
    boardAt (endAuction gsAuction) "5" =
      (boardAt gsAuction "5").map (fun ps => { ps with owner := some "b" }) ∧
    moneyAt (endAuction gsAuction) "b" = some ((mkPlayer "b" 1000).money - 50) ∧
    (∀ c hb, endAuction (withStaleFields gsAuction c hb) =
      withStaleFields (endAuction gsAuction) c hb) :=
  endAuction_spec gsAuction "5" { type := .airport, cost := 200, rent := [25, 50, 100, 200] }
    .airports "b" 50 (mkPlayer "b" 1000)
    (by decide) (by decide) (by decide) (by decide) (by decide) (by decide)

end Monopoly

namespace Monopoly

theorem initialBoard_rent_nonneg :
    ∀ e ∈ initialBoardState, ∀ x ∈ e.2.rent, (0 : Int) ≤ x := by
  decide

theorem rentEntry_nonneg (sq : BoardSquare) (h : ∀ x ∈ sq.rent, (0 : Int) ≤ x) (i : Int) :
    0 ≤ rentEntry sq i := by
  unfold rentEntry
  split_ifs
  · exact le_refl 0
  · cases hg : sq.rent.get? i.toNat with
    | none => simp [hg]
    | some x =>
      have hx := h x (List.get?_mem hg)
      simp only [hg, Option.getD_some]
      exact_mod_cast hx

theorem rentOf_nonneg (sq : BoardSquare) (st : PropertyState) (owner : Player)
    (settings : GameSettings) (dice : Int) (hd : 0 ≤ dice)
    (hsq : ∀ x ∈ sq.rent, (0 : Int) ≤ x) {rent : ℚ}
    (h : rentOf sq st owner settings dice = some rent) : 0 ≤ rent := by
  have hdq : (0 : ℚ) ≤ (dice : ℚ) := by exact_mod_cast hd
  unfold rentOf at h
  cases htype : sq.type
  case city =>
    rw [htype] at h
    dsimp only at h
    cases hc : getKey countryData sq.country with
    | none =>
      rw [hc] at h
      exact absurd h (by simp)
    | some country =>
      rw [hc] at h
      dsimp only at h
      cases Option.some.inj h
      split_ifs <;>
        first
          | exact rentEntry_nonneg sq hsq _
          | exact mul_nonneg (rentEntry_nonneg sq hsq _) (by norm_num)
  case airport =>
    rw [htype] at h
    dsimp only at h
    cases Option.some.inj h
    exact rentEntry_nonneg sq hsq _
  case harbour =>
    rw [htype] at h
    dsimp only at h
    cases Option.some.inj h
    exact rentEntry_nonneg sq hsq _
  case company =>
    rw [htype] at h
    dsimp only at h
    cases Option.some.inj h
    split_ifs <;> positivity
  all_goals
    rw [htype] at h
    exact absurd h (by simp)

end Monopoly

namespace Monopoly

/-- Rent fixture: "o" owns city "1" (with a hotel, no monopoly); square "3"
    is unowned. -/
def gsRent : GameState :=
  mkState [("r", mkPlayer "r" 1000), ("o", { mkPlayer "o" 200 with cities := ["1"] })]
    [("1", { owner := some "o", houses := 0, hotels := 1, mortgaged := false }),
     ("3", { owner := none, houses := 0, hotels := 0, mortgaged := false })]

end Monopoly

namespace Monopoly

/-- The transfer effect of a successful `handlePayment` (shared helper). -/
theorem handlePayment_transfer (gs : GameState) (renterId pos : String) (dice : Int)
    (sq : BoardSquare) (st : PropertyState) (ownerId : PlayerId) (owner renter : Player)
    (rent : ℚ)
    (hsq : getKey initialBoardState pos = some sq)
    (hst : getKey gs.board pos = some st)
    (howner : st.owner = some ownerId)
    (hguard : (ownerId == renterId || st.mortgaged) = false)
    (hren : getKey gs.players renterId = some renter)
    (how : getKey gs.players ownerId = some owner)
    (hjail : (owner.inJail && !gs.settings.rentInJail) = false)
    (hrent : rentOf sq st owner gs.settings dice = some rent) :
    moneyAt (handlePayment gs renterId pos dice) renterId = some (renter.money - rent) ∧
    (renterId ≠ ownerId →
      moneyAt (handlePayment gs renterId pos dice) ownerId = some (owner.money + rent)) := by
  have hor : ¬ renterId = ownerId := by
    intro h
    subst h
    simp at hguard
  constructor
  · simp only [handlePayment, hsq, hst, howner, hguard, hren, how, hjail, hrent]
    simp [moneyAt, addMoney, getKey_updatePlayer, hren, hor, sub_eq_add_neg]
  · intro hro
    have hro' : ¬ ownerId = renterId := fun h => hro h.symm
    simp only [handlePayment, hsq, hst, howner, hguard, hren, how, hjail, hrent]
    simp [moneyAt, addMoney, getKey_updatePlayer, how, hro, hro']

end Monopoly

namespace Monopoly

/-- No square with `mortgaged = true` carries houses or a hotel. -/
def MortgageClean (gs : GameState) : Prop :=
  ∀ e ∈ gs.board, e.2.mortgaged = true → e.2.houses ≤ 0 ∧ e.2.hotels ≤ 0

instance (gs : GameState) : Decidable (MortgageClean gs) := by
  unfold MortgageClean
  infer_instance

theorem mem_modKey {l : List (String × α)} {k : String} {f : α → α} {e' : String × α}
    (h : e' ∈ modKey l k f) :
    ∃ e ∈ l, e' = if e.1 == k then (e.1, f e.2) else e := by
  simp only [modKey, List.mem_map] at h
  obtain ⟨e, he, rfl⟩ := h
  exact ⟨e, he, rfl⟩

theorem getKey_of_mem_nodup {l : List (String × α)} (hnd : (keysOf l).Nodup)
    {k : String} {v : α} (h : (k, v) ∈ l) : getKey l k = some v := by
  induction l with
  | nil => simp at h
  | cons e t ih =>
    obtain ⟨k₀, v₀⟩ := e
    simp only [keysOf, List.map_cons, List.nodup_cons] at hnd
    rcases List.mem_cons.mp h with h1 | h1
    · cases h1
      simp [getKey_cons]
    · have hk : k ≠ k₀ := by
        intro hk
        subst hk
        exact hnd.1 (List.mem_map.mpr ⟨(k, v), h1, rfl⟩)
      have : (k₀ == k) = false := by
        simp only [beq_eq_false_iff_ne, ne_eq]
        exact fun hh => hk hh.symm
      rw [getKey_cons, this]
      simp only [Bool.false_eq_true, if_false]
      exact ih hnd.2 h1

theorem moveProps_fields :
    ∀ (props : List PropertyId) (g t : Player) (b : List (PropertyId × PropertyState)),
    ∀ e' ∈ (moveProps g t b props).2.2, ∃ e ∈ b,
      e'.2.houses = e.2.houses ∧ e'.2.hotels = e.2.hotels ∧
      e'.2.mortgaged = e.2.mortgaged := by
  intro props
  induction props with
  | nil =>
    intro g t b e' he'
    exact ⟨e', he', rfl, rfl, rfl⟩
  | cons propId rest ih =>
    intro g t b e' he'
    cases hcat : (getKey initialBoardState propId).bind (fun sq => propertyTypeMap sq.type) with
    | none =>
      simp only [moveProps, hcat] at he'
      exact ih _ _ _ _ he'
    | some cat =>
      simp only [moveProps, hcat] at he'
      obtain ⟨e₁, he₁, h1⟩ := ih _ _ _ _ he'
      obtain ⟨e₀, he₀, rfl⟩ := mem_modKey he₁
      by_cases hk : (e₀.1 == propId) = true
      · rw [if_pos hk] at h1
        exact ⟨e₀, he₀, h1.1, h1.2.1, h1.2.2⟩
      · rw [if_neg (by simpa using hk)] at h1
        exact ⟨e₀, he₀, h1⟩

end Monopoly

namespace Monopoly

/-- C5 (amended): the "no mortgaged square carries houses or a hotel"
    invariant is preserved by `mortgageProperty`, `sellHouse`, trade
    acceptance and auction settlement, and by `buildHouse` whenever the
    target city is not mortgaged.  (`buildHouse` itself never checks
    `mortgaged`, so building on a mortgaged monopoly city violates the
    invariant — see the counterexample.) -/
theorem mortgagedNeverImproved (gs : GameState)
    (hnd : (keysOf gs.board).Nodup) (h : MortgageClean gs) :
    (∀ pid propId, MortgageClean (mortgageProperty gs pid propId)) ∧
    (∀ pid cityId, MortgageClean (sellHouse gs pid cityId)) ∧
    (∀ tid, MortgageClean (handleAcceptTrade gs tid)) ∧
    MortgageClean (endAuction gs) ∧
    (∀ pid cityId cs, getKey gs.board cityId = some cs → cs.mortgaged = false →
      MortgageClean (buildHouse gs pid cityId)) := by
  refine ⟨?_, ?_, ?_, ?_, ?_⟩
  · -- mortgageProperty
    intro pid propId
    unfold mortgageProperty
    dsimp only [addMoney, updatePlayer]
    split
    · exact h
    split
    case _ propertyInfo propertyState hsq hst =>
      split_ifs with h1 h2 h3
      · exact h
      · exact h
      · exact h
      · intro e' he' hm
        try dsimp only at he'
        obtain ⟨e, he, rfl⟩ := mem_modKey he'
        by_cases hk : (e.1 == propId) = true
        · rw [if_pos hk] at hm ⊢
          have hkey : e.1 = propId := by simpa using hk
          have hev : getKey gs.board e.1 = some e.2 := getKey_of_mem_nodup hnd he
          rw [hkey, hst] at hev
          cases Option.some.inj hev
          simp only [decide_eq_true_eq, Bool.or_eq_true, not_or] at h1
          constructor <;> dsimp <;> omega
        · rw [if_neg hk] at hm ⊢
          exact h e he hm
    case _ =>
      exact h
  · -- sellHouse
    intro pid cityId
    unfold sellHouse
    dsimp only [addMoney, updatePlayer]
    split
    case _ cityInfo cityState hsq hst =>
      split
      · exact h
      case _ countryInfo hc =>
        split_ifs with h1 h2
        · intro e' he' hm
          try dsimp only at he'
          obtain ⟨e, he, rfl⟩ := mem_modKey he'
          by_cases hk : (e.1 == cityId) = true
          · rw [if_pos hk] at hm ⊢
            have hkey : e.1 = cityId := by simpa using hk
            have hev : getKey gs.board e.1 = some e.2 := getKey_of_mem_nodup hnd he
            rw [hkey, hst] at hev
            cases Option.some.inj hev
            dsimp at hm
            have := h e he hm
            dsimp at this ⊢
            omega
          · rw [if_neg hk] at hm ⊢
            exact h e he hm
        · intro e' he' hm
          try dsimp only at he'
          obtain ⟨e, he, rfl⟩ := mem_modKey he'
          by_cases hk : (e.1 == cityId) = true
          · rw [if_pos hk] at hm ⊢
            dsimp at hm
            have := h e he hm
            dsimp at this ⊢
            omega
          · rw [if_neg hk] at hm ⊢
            exact h e he hm
        · exact h
    case _ =>
      exact h
  · -- handleAcceptTrade
    intro tid
    unfold handleAcceptTrade
    dsimp only
    split
    · exact h
    case _ trade ht =>
      split
      case _ fromPlayer toPlayer hfp htp =>
        split_ifs with h1
        · exact h
        · intro e' he'
          obtain ⟨e₁, he₁, hf1⟩ := moveProps_fields _ _ _ _ e' he'
          obtain ⟨e₀, he₀, hf0⟩ := moveProps_fields _ _ _ _ e₁ he₁
          intro hm
          rw [hf1.2.2, hf0.2.2] at hm
          have := h e₀ he₀ hm
          rw [hf1.1, hf0.1, hf1.2.1, hf0.2.1]
          exact this
      case _ =>
        exact h
  · -- endAuction
    unfold endAuction
    dsimp only [addMoney, updatePlayer]
    split
    · exact h
    case _ propId hp =>
      split
      · exact h
      case _ property hsq =>
        split
        · exact h
        case _ =>
          rename_i w amt hmax
          split
          case _ winner cat hw hcat =>
            have hboard : ∀ e' ∈ (modKey gs.board propId
                (fun ps => { ps with owner := some w })), e'.2.mortgaged = true →
                e'.2.houses ≤ 0 ∧ e'.2.hotels ≤ 0 := by
              intro e' he' hm
              try dsimp only at he'
              obtain ⟨e, he, rfl⟩ := mem_modKey he'
              by_cases hk : (e.1 == propId) = true
              · rw [if_pos hk] at hm ⊢
                exact h e he hm
              · rw [if_neg hk] at hm ⊢
                exact h e he hm
            split
            case _ sellerId hs =>
              split_ifs with hpot
              · exact fun e' he' => hboard e' he'
              · exact fun e' he' => hboard e' he'
            case _ hs =>
              exact fun e' he' => hboard e' he'
          case _ =>
            exact h
  · -- buildHouse on an unmortgaged city
    intro pid cityId cs hcs hcsm
    unfold buildHouse
    dsimp only [addMoney, updatePlayer]
    split
    case _ player cityInfo cityState hplayer hsq hst =>
      split
      · exact h
      case _ countryInfo hc =>
        split_ifs with h1 h2 h3 h4
        · exact h
        · exact h
        · intro e' he' hm
          try dsimp only at he'
          obtain ⟨e, he, rfl⟩ := mem_modKey he'
          by_cases hk : (e.1 == cityId) = true
          · rw [if_pos hk] at hm ⊢
            have hkey : e.1 = cityId := by simpa using hk
            have hev : getKey gs.board e.1 = some e.2 := getKey_of_mem_nodup hnd he
            rw [hkey, hcs] at hev
            cases Option.some.inj hev
            dsimp at hm
            rw [hm] at hcsm
            cases hcsm
          · rw [if_neg hk] at hm ⊢
            exact h e he hm
        · intro e' he' hm
          try dsimp only at he'
          obtain ⟨e, he, rfl⟩ := mem_modKey he'
          by_cases hk : (e.1 == cityId) = true
          · rw [if_pos hk] at hm ⊢
            have hkey : e.1 = cityId := by simpa using hk
            have hev : getKey gs.board e.1 = some e.2 := getKey_of_mem_nodup hnd he
            rw [hkey, hcs] at hev
            cases Option.some.inj hev
            dsimp at hm
            rw [hm] at hcsm
            cases hcsm
          · rw [if_neg hk] at hm ⊢
            exact h e he hm
        · exact h
    case _ =>
      exact h

end Monopoly

namespace Monopoly

/-- Fixture: "p1" holds the full Brazil monopoly and has mortgaged Rio ("1"). -/
def gsMortBuild : GameState :=
  mkState [("p1", { mkPlayer "p1" 1000 with cities := ["1", "3", "6"] })]
    [("1", { owner := some "p1", houses := 0, hotels := 0, mortgaged := true }),
     ("3", { owner := some "p1", houses := 0, hotels := 0, mortgaged := false }),
     ("6", { owner := some "p1", houses := 0, hotels := 0, mortgaged := false })]

/-- C5 counterexample: `buildHouse` never checks `mortgaged`, so building on
    the mortgaged monopoly city "1" yields a mortgaged square with one house,
    violating the claimed invariant. -/
theorem buildHouse_breaks_mortgage_invariant_cex :
    MortgageClean gsMortBuild ∧
    boardAt (buildHouse gsMortBuild "p1" "1") "1" =
      some { owner := some "p1", houses := 1, hotels := 0, mortgaged := true } ∧
    ¬ MortgageClean (buildHouse gsMortBuild "p1" "1") := by
  decide

/-- Witness for `mortgagedNeverImproved` at the concrete state `gsRent`. -/
theorem mortgagedNeverImproved_witness :
    (∀ pid propId, MortgageClean (mortgageProperty gsRent pid propId)) ∧
    (∀ pid cityId, MortgageClean (sellHouse gsRent pid cityId)) ∧
    (∀ tid, MortgageClean (handleAcceptTrade gsRent tid)) ∧
    MortgageClean (endAuction gsRent) ∧
    (∀ pid cityId cs, getKey gsRent.board cityId = some cs → cs.mortgaged = false →
      MortgageClean (buildHouse gsRent pid cityId)) :=
  mortgagedNeverImproved gsRent (by decide) (by decide)

end Monopoly

namespace Monopoly

theorem getArr_setArr (p : Player) (c c' : OwnCat) (l : List PropertyId) :
    getArr (setArr p c l) c' = if c' = c then l else getArr p c' := by
  cases c <;> cases c' <;> simp [setArr, getArr]

theorem moveProps_money_id :
    ∀ (props : List PropertyId) (g t : Player) (b : List (PropertyId × PropertyState)),
      (moveProps g t b props).1.money = g.money ∧ (moveProps g t b props).1.id = g.id ∧
      (moveProps g t b props).2.1.money = t.money ∧ (moveProps g t b props).2.1.id = t.id := by
  intro props
  induction props with
  | nil => intro g t b; exact ⟨rfl, rfl, rfl, rfl⟩
  | cons propId rest ih =>
    intro g t b
    cases hcat : (getKey initialBoardState propId).bind (fun sq => propertyTypeMap sq.type) with
    | none =>
      simp only [moveProps, hcat]
      exact ih g t b
    | some cat =>
      simp only [moveProps, hcat, setArr_id]
      have := ih (setArr g cat ((getArr g cat).filter (fun q => q ≠ propId)))
        (setArr t cat (getArr t cat ++ [propId]))
        (modKey b propId (fun ps => { ps with owner := some t.id }))
      simp only [setArr_money, setArr_id] at this
      exact this

theorem moveProps_preserve (x : PropertyId) :
    ∀ (props : List PropertyId) (g t : Player) (b : List (PropertyId × PropertyState)),
      x ∉ props →
      getKey (moveProps g t b props).2.2 x = getKey b x ∧
      (∀ c, x ∈ getArr (moveProps g t b props).1 c ↔ x ∈ getArr g c) ∧
      (∀ c, x ∈ getArr (moveProps g t b props).2.1 c ↔ x ∈ getArr t c) := by
  intro props
  induction props with
  | nil => intro g t b _; exact ⟨rfl, fun _ => Iff.rfl, fun _ => Iff.rfl⟩
  | cons propId rest ih =>
    intro g t b hx
    have hxp : x ≠ propId := fun h => hx (h ▸ List.mem_cons_self propId rest)
    have hxr : x ∉ rest := fun h => hx (List.mem_cons_of_mem propId h)
    cases hcat : (getKey initialBoardState propId).bind (fun sq => propertyTypeMap sq.type) with
    | none =>
      simp only [moveProps, hcat]
      exact ih g t b hxr
    | some cat =>
      simp only [moveProps, hcat, setArr_id]
      obtain ⟨hb, hg, ht⟩ := ih (setArr g cat ((getArr g cat).filter (fun q => q ≠ propId)))
        (setArr t cat (getArr t cat ++ [propId]))
        (modKey b propId (fun ps => { ps with owner := some t.id })) hxr
      refine ⟨?_, ?_, ?_⟩
      · rw [hb, getKey_modKey, if_neg hxp]
      · intro c
        rw [hg c, getArr_setArr]
        by_cases hc : c = cat
        · subst hc
          rw [if_pos rfl]
          simp [List.mem_filter, hxp]
        · rw [if_neg hc]
      · intro c
        rw [ht c, getArr_setArr]
        by_cases hc : c = cat
        · subst hc
          rw [if_pos rfl]
          simp [hxp]
        · rw [if_neg hc]

theorem moveProps_moved (x : PropertyId) (sq : BoardSquare) (cat : OwnCat)
    (hsq : getKey initialBoardState x = some sq) (hcat : propertyTypeMap sq.type = some cat) :
    ∀ (props : List PropertyId) (g t : Player) (b : List (PropertyId × PropertyState)),
      x ∈ props →
      x ∈ getArr (moveProps g t b props).2.1 cat ∧
      x ∉ getArr (moveProps g t b props).1 cat ∧
      (∀ ps, getKey b x = some ps →
        getKey (moveProps g t b props).2.2 x = some { ps with owner := some t.id }) := by
  intro props
  induction props with
  | nil =>
    intro g t b hx
    simp at hx
  | cons propId rest ih =>
    intro g t b hx
    by_cases hxr : x ∈ rest
    · cases hcat' : (getKey initialBoardState propId).bind (fun sq => propertyTypeMap sq.type) with
      | none =>
        simp only [moveProps, hcat']
        exact ih g t b hxr
      | some cat' =>
        simp only [moveProps, hcat', setArr_id]
        obtain ⟨h1, h2, h3⟩ := ih (setArr g cat' ((getArr g cat').filter (fun q => q ≠ propId)))
          (setArr t cat' (getArr t cat' ++ [propId]))
          (modKey b propId (fun ps => { ps with owner := some t.id })) hxr
        simp only [setArr_id] at h3
        refine ⟨h1, h2, ?_⟩
        intro ps hps
        by_cases hpx : x = propId
        · subst hpx
          refine h3 { ps with owner := some t.id } ?_
          rw [getKey_modKey, if_pos rfl, hps]
          rfl
        · refine h3 ps ?_
          rw [getKey_modKey, if_neg hpx, hps]
    · have hpx : x = propId := by
        rcases List.mem_cons.mp hx with h | h
        · exact h
        · exact absurd h hxr
      subst hpx
      have hbind : (getKey initialBoardState x).bind (fun sq => propertyTypeMap sq.type) = some cat := by
        rw [hsq]
        exact hcat
      simp only [moveProps, hbind, setArr_id]
      obtain ⟨pb, pg, pt⟩ := moveProps_preserve x rest
        (setArr g cat ((getArr g cat).filter (fun q => q ≠ x)))
        (setArr t cat (getArr t cat ++ [x]))
        (modKey b x (fun ps => { ps with owner := some t.id })) hxr
      refine ⟨?_, ?_, ?_⟩
      · rw [pt cat, getArr_setArr, if_pos rfl]
        simp
      · rw [pg cat, getArr_setArr, if_pos rfl]
        simp [List.mem_filter]
      · intro ps hps
        rw [pb, getKey_modKey, if_pos rfl, hps]
        rfl

end Monopoly

namespace Monopoly

/-- C1: trade acceptance is funds-checked and atomic.  With non-negative
    money amounts on both sides, insufficient funds post-adjustment force the
    whole transaction to abort with the state unchanged; when the funds check
    passes, the full exchange is applied: both money balances are adjusted by
    the offer and request amounts, every listed (ownable) property changes
    category array and board owner in lockstep, and the trade is removed. -/
theorem handleAcceptTrade_atomic (gs : GameState) (tradeId : String) (trade : Trade)
    (fromP toP : Player)
    (ht : getKey gs.trades tradeId = some trade)
    (hid : trade.id = tradeId)
    (hfp : getKey gs.players trade.fromPlayer = some fromP)
    (htp : getKey gs.players trade.toPlayer = some toP)
    (hne : trade.fromPlayer ≠ trade.toPlayer)
    (hfid : fromP.id = trade.fromPlayer)
    (htid : toP.id = trade.toPlayer)
    (hom : 0 ≤ trade.offer.money)
    (hrm : 0 ≤ trade.request.money) :
    ((fromP.money - trade.offer.money + trade.request.money < 0 ∨
      toP.money + trade.offer.money - trade.request.money < 0) →
        handleAcceptTrade gs tradeId = gs) ∧
    (¬ (fromP.money < trade.offer.money ∨ toP.money < trade.request.money) →
      moneyAt (handleAcceptTrade gs tradeId) trade.fromPlayer =
        some (fromP.money - trade.offer.money + trade.request.money) ∧
      moneyAt (handleAcceptTrade gs tradeId) trade.toPlayer =
        some (toP.money + trade.offer.money - trade.request.money) ∧
      getKey (handleAcceptTrade gs tradeId).trades tradeId = none ∧
      (∀ x ∈ trade.offer.properties, x ∉ trade.request.properties →
        ∀ sq cat, getKey initialBoardState x = some sq → propertyTypeMap sq.type = some cat →
          (∀ t', getKey (handleAcceptTrade gs tradeId).players trade.toPlayer = some t' →
            x ∈ getArr t' cat) ∧
          (∀ f', getKey (handleAcceptTrade gs tradeId).players trade.fromPlayer = some f' →
            x ∉ getArr f' cat) ∧
          (∀ ps, getKey gs.board x = some ps →
            getKey (handleAcceptTrade gs tradeId).board x =
              some { ps with owner := some trade.toPlayer })) ∧
      (∀ x ∈ trade.request.properties, x ∉ trade.offer.properties →
        ∀ sq cat, getKey initialBoardState x = some sq → propertyTypeMap sq.type = some cat →
          (∀ f', getKey (handleAcceptTrade gs tradeId).players trade.fromPlayer = some f' →
            x ∈ getArr f' cat) ∧
          (∀ t', getKey (handleAcceptTrade gs tradeId).players trade.toPlayer = some t' →
            x ∉ getArr t' cat) ∧
          (∀ ps, getKey gs.board x = some ps →
            getKey (handleAcceptTrade gs tradeId).board x =
              some { ps with owner := some trade.fromPlayer }))) := by
  have hne' : ¬ trade.toPlayer = trade.fromPlayer := fun h => hne h.symm
  constructor
  · intro hpost
    have hpre : fromP.money < trade.offer.money ∨ toP.money < trade.request.money := by
      rcases hpost with h | h
      · left; linarith
      · right; linarith
    simp only [handleAcceptTrade, ht, hfp, htp, if_pos hpre]
  · intro hsuff
    simp only [handleAcceptTrade, ht, hfp, htp, if_neg hsuff]
    set fromP1 : Player := { fromP with
      money := fromP.money - trade.offer.money + trade.request.money } with hfromP1
    set toP1 : Player := { toP with
      money := toP.money + trade.offer.money - trade.request.money } with htoP1
    set r1 := moveProps fromP1 toP1 gs.board trade.offer.properties with hr1
    set r2 := moveProps r1.2.1 r1.1 r1.2.2 trade.request.properties with hr2
    have hmid := moveProps_money_id trade.offer.properties fromP1 toP1 gs.board
    have hmid2 := moveProps_money_id trade.request.properties r1.2.1 r1.1 r1.2.2
    rw [← hr1] at hmid
    rw [← hr2] at hmid2
    have hlookF : getKey (setKey (setKey gs.players trade.fromPlayer r2.2.1)
        trade.toPlayer r2.1) trade.fromPlayer = some r2.2.1 := by
      rw [getKey_setKey, if_neg hne, getKey_setKey, if_pos rfl, hfp]
      rfl
    have hlookT : getKey (setKey (setKey gs.players trade.fromPlayer r2.2.1)
        trade.toPlayer r2.1) trade.toPlayer = some r2.1 := by
      rw [getKey_setKey, if_pos rfl, getKey_setKey, if_neg hne', htp]
      rfl
    refine ⟨?_, ?_, ?_, ?_, ?_⟩
    · simp only [moneyAt]
      rw [hlookF]
      simp only [Option.map_some']
      rw [hmid2.2.2.1, hmid.1]
    · simp only [moneyAt]
      rw [hlookT]
      simp only [Option.map_some']
      rw [hmid2.1, hmid.2.2.1]
    · rw [hid, getKey_removeKey, if_pos rfl]
    · intro x hxo hxnr sq cat hsq hcat
      obtain ⟨m1, m2, m3⟩ := moveProps_moved x sq cat hsq hcat
        trade.offer.properties fromP1 toP1 gs.board hxo
      obtain ⟨p1, p2, p3⟩ := moveProps_preserve x
        trade.request.properties r1.2.1 r1.1 r1.2.2 hxnr
      rw [← hr1] at m1 m2 m3
      rw [← hr2] at p1 p2 p3
      refine ⟨?_, ?_, ?_⟩
      · intro t' ht'
        rw [hlookT] at ht'
        cases Option.some.inj ht'
        exact (p2 cat).mpr m1
      · intro f' hf'
        rw [hlookF] at hf'
        cases Option.some.inj hf'
        intro hmem
        exact m2 ((p3 cat).mp hmem)
      · intro ps hps
        have hb1 : getKey r1.2.2 x = some { ps with owner := some toP1.id } := m3 ps hps
        have : getKey r2.2.2 x = some { ps with owner := some toP1.id } := by
          rw [p1, hb1]
        rw [this]
        have hida : toP1.id = trade.toPlayer := htid
        rw [hida]
    · intro x hxr hxno sq cat hsq hcat
      obtain ⟨m1, m2, m3⟩ := moveProps_moved x sq cat hsq hcat
        trade.request.properties r1.2.1 r1.1 r1.2.2 hxr
      obtain ⟨p1, p2, p3⟩ := moveProps_preserve x
        trade.offer.properties fromP1 toP1 gs.board hxno
      rw [← hr2] at m1 m2 m3
      rw [← hr1] at p1 p2 p3
      refine ⟨?_, ?_, ?_⟩
      · intro f' hf'
        rw [hlookF] at hf'
        cases Option.some.inj hf'
        exact m1
      · intro t' ht'
        rw [hlookT] at ht'
        cases Option.some.inj ht'
        exact m2
      · intro ps hps
        have hb1 : getKey r1.2.2 x = some ps := by
          rw [p1, hps]
        have := m3 ps hb1
        rw [this]
        have hida : r1.1.id = trade.fromPlayer := by
          rw [hmid.2.1]
          exact hfid
        rw [hida]

end Monopoly

namespace Monopoly

/-- A concrete pending trade: "p1" offers $100 and city "1" for $30 and
    airport "5". -/
def tradeW : Trade :=
  { id := "t1", fromPlayer := "p1", toPlayer := "p2",
    offer := { money := 100, properties := ["1"] },
    request := { money := 30, properties := ["5"] } }

/-- Trade fixture around `tradeW`. -/
def gsTrade : GameState :=
  { mkState [("p1", { mkPlayer "p1" 500 with cities := ["1"] }),
             ("p2", { mkPlayer "p2" 300 with airports := ["5"] })]
      [("1", { owner := some "p1", houses := 0, hotels := 0, mortgaged := false }),
       ("5", { owner := some "p2", houses := 0, hotels := 0, mortgaged := false })] with
    trades := [("t1", tradeW)] }

/-- Witness for `handleAcceptTrade_atomic` at the concrete state `gsTrade`. -/
theorem handleAcceptTrade_atomic_witness :
    ((({ mkPlayer "p1" 500 with cities := ["1"] } : Player).money - tradeW.offer.money +
        tradeW.request.money < 0 ∨
      ({ mkPlayer "p2" 300 with airports := ["5"] } : Player).money + tradeW.offer.money -
        tradeW.request.money < 0) →
        handleAcceptTrade gsTrade "t1" = gsTrade) ∧
    (¬ (({ mkPlayer "p1" 500 with cities := ["1"] } : Player).money < tradeW.offer.money ∨
        ({ mkPlayer "p2" 300 with airports := ["5"] } : Player).money < tradeW.request.money) →
      moneyAt (handleAcceptTrade gsTrade "t1") tradeW.fromPlayer =
        some (({ mkPlayer "p1" 500 with cities := ["1"] } : Player).money -
          tradeW.offer.money + tradeW.request.money) ∧
      moneyAt (handleAcceptTrade gsTrade "t1") tradeW.toPlayer =
        some (({ mkPlayer "p2" 300 with airports := ["5"] } : Player).money +
          tradeW.offer.money - tradeW.request.money) ∧
      getKey (handleAcceptTrade gsTrade "t1").trades "t1" = none ∧
      (∀ x ∈ tradeW.offer.properties, x ∉ tradeW.request.properties →
        ∀ sq cat, getKey initialBoardState x = some sq → propertyTypeMap sq.type = some cat →
          (∀ t', getKey (handleAcceptTrade gsTrade "t1").players tradeW.toPlayer = some t' →
            x ∈ getArr t' cat) ∧
          (∀ f', getKey (handleAcceptTrade gsTrade "t1").players tradeW.fromPlayer = some f' →
            x ∉ getArr f' cat) ∧
          (∀ ps, getKey gsTrade.board x = some ps →
            getKey (handleAcceptTrade gsTrade "t1").board x =
              some { ps with owner := some tradeW.toPlayer })) ∧
      (∀ x ∈ tradeW.request.properties, x ∉ tradeW.offer.properties →
        ∀ sq cat, getKey initialBoardState x = some sq → propertyTypeMap sq.type = some cat →
          (∀ f', getKey (handleAcceptTrade gsTrade "t1").players tradeW.fromPlayer = some f' →
            x ∈ getArr f' cat) ∧
          (∀ t', getKey (handleAcceptTrade gsTrade "t1").players tradeW.toPlayer = some t' →
            x ∉ getArr t' cat) ∧
          (∀ ps, getKey gsTrade.board x = some ps →
            getKey (handleAcceptTrade gsTrade "t1").board x =
              some { ps with owner := some tradeW.fromPlayer }))) :=
  handleAcceptTrade_atomic gsTrade "t1" tradeW
    { mkPlayer "p1" 500 with cities := ["1"] } { mkPlayer "p2" 300 with airports := ["5"] }
    (by decide) (by decide) (by decide) (by decide) (by decide) (by decide) (by decide)
    (by decide) (by decide)

end Monopoly

namespace Monopoly

/-- Player keys are distinct and nobody holds more than one
    "get out of Jail free" card. -/
def CapState (gs : GameState) : Prop :=
  (keysOf gs.players).Nodup ∧ ∀ e ∈ gs.players, e.2.getOutOfJailFreeCards ≤ 1

instance (gs : GameState) : Decidable (CapState gs) := by
  unfold CapState
  infer_instance

theorem keysOf_modKey (l : List (String × α)) (k : String) (f : α → α) :
    keysOf (modKey l k f) = keysOf l := by
  simp only [keysOf, modKey, List.map_map]
  refine List.map_congr_left ?_
  intro e _
  by_cases h : e.1 = k <;> simp [h]

theorem capState_updatePlayer {gs : GameState} {pid : PlayerId} {f : Player → Player}
    (hf : ∀ p, (f p).getOutOfJailFreeCards = p.getOutOfJailFreeCards)
    (h : CapState gs) : CapState (updatePlayer gs pid f) := by
  refine ⟨?_, ?_⟩
  · rw [updatePlayer_players, keysOf_modKey]
    exact h.1
  · intro e' he'
    rw [updatePlayer_players] at he'
    obtain ⟨e, he, rfl⟩ := mem_modKey he'
    by_cases hk : (e.1 == pid) = true
    · rw [if_pos hk]
      dsimp only
      rw [hf]
      exact h.2 e he
    · rw [if_neg hk]
      exact h.2 e he

theorem capState_withPot {gs : GameState} (h : CapState gs) (v : ℚ) :
    CapState { gs with vacationPot := v } := h

theorem capState_potGate {gs : GameState} (c : ℚ) (h : CapState gs) :
    CapState (potGate gs c) := by
  unfold potGate
  split_ifs
  · exact h
  · exact h

theorem capState_addMoney {gs : GameState} (pid : PlayerId) (d : ℚ) (h : CapState gs) :
    CapState (addMoney gs pid d) :=
  capState_updatePlayer (fun _ => rfl) h

theorem capState_setPos {gs : GameState} (pid : PlayerId) (n : Nat) (h : CapState gs) :
    CapState (setPos gs pid n) :=
  capState_updatePlayer (fun _ => rfl) h

theorem capState_goToJail {gs : GameState} (pid : PlayerId) (h : CapState gs) :
    CapState (goToJail gs pid) := by
  unfold goToJail
  have h2 := @capState_updatePlayer gs pid
    (fun p => { p with position := 14, animatedPosition := 14, inJail := true, jailTurns := 1, doublesCount := 0 })
    (fun _ => rfl) h
  exact ⟨h2.1, h2.2⟩

theorem capState_transferRent {gs : GameState} (a b : PlayerId) (r : ℚ) (h : CapState gs) :
    CapState (transferRent gs a b r) :=
  capState_addMoney _ _ (capState_addMoney _ _ h)

theorem capState_handlePayment {gs : GameState} (renterId pos : String) (dice : Int)
    (h : CapState gs) : CapState (handlePayment gs renterId pos dice) := by
  unfold handlePayment
  split
  · split
    · exact h
    · split_ifs with h1
      · exact h
      · split
        · split_ifs with h2
          · exact h
          · split
            · exact h
            · exact capState_addMoney _ _ (capState_addMoney _ _ h)
        · exact h
  · exact h

theorem capState_mapBatch {gs : GameState} {pid : PlayerId} {g : Player → Player}
    (hg : ∀ p, (g p).getOutOfJailFreeCards = p.getOutOfJailFreeCards)
    (h : CapState gs) :
    CapState { gs with players := gs.players.map (fun e => if e.1 == pid then e else (e.1, g e.2)) } := by
  refine ⟨?_, ?_⟩
  · show (keysOf (gs.players.map (fun e => if e.1 == pid then e else (e.1, g e.2)))).Nodup
    have : keysOf (gs.players.map (fun e => if e.1 == pid then e else (e.1, g e.2))) =
        keysOf gs.players := by
      simp only [keysOf, List.map_map]
      refine List.map_congr_left ?_
      intro e _
      by_cases hk : e.1 = pid <;> simp [hk]
    rw [this]
    exact h.1
  · intro e' he'
    simp only [List.mem_map] at he'
    obtain ⟨e, he, rfl⟩ := he'
    by_cases hk : (e.1 == pid) = true
    · rw [if_pos hk]
      exact h.2 e he
    · rw [if_neg hk]
      dsimp only
      rw [hg]
      exact h.2 e he

theorem capState_jailCardGrant {gs : GameState} {pid : PlayerId} {player : Player}
    (hp : getKey gs.players pid = some player)
    (hlt : player.getOutOfJailFreeCards < 1)
    (h : CapState gs) :
    CapState (updatePlayer gs pid (fun p =>
      { p with getOutOfJailFreeCards := p.getOutOfJailFreeCards + 1 })) := by
  refine ⟨?_, ?_⟩
  · rw [updatePlayer_players, keysOf_modKey]
    exact h.1
  · intro e' he'
    rw [updatePlayer_players] at he'
    obtain ⟨e, he, rfl⟩ := mem_modKey he'
    by_cases hk : (e.1 == pid) = true
    · rw [if_pos hk]
      have hkey : e.1 = pid := by simpa using hk
      have hev : getKey gs.players e.1 = some e.2 := getKey_of_mem_nodup h.1 he
      rw [hkey, hp] at hev
      cases Option.some.inj hev
      dsimp only
      omega
    · rw [if_neg hk]
      exact h.2 e he

end Monopoly

namespace Monopoly

theorem capState_mapGeneric {gs : GameState} (F : (String × Player) → (String × Player))
    (hk : ∀ e, (F e).1 = e.1)
    (hc : ∀ e, (F e).2.getOutOfJailFreeCards = e.2.getOutOfJailFreeCards)
    (h : CapState gs) :
    CapState { gs with players := gs.players.map F } := by
  refine ⟨?_, ?_⟩
  · show (keysOf (gs.players.map F)).Nodup
    have : keysOf (gs.players.map F) = keysOf gs.players := by
      simp only [keysOf, List.map_map]
      refine List.map_congr_left ?_
      intro e _
      exact hk e
    rw [this]
    exact h.1
  · intro e' he'
    simp only [List.mem_map] at he'
    obtain ⟨e, he, rfl⟩ := he'
    rw [hc e]
    exact h.2 e he

set_option maxHeartbeats 3200000 in
set_option maxRecDepth 4096 in
theorem resolveF_capState (cardAt : Nat → String) (diceAt : Nat → Int) :
    ∀ (fuel : Nat) (act : Act) (gs : GameState),
      CapState gs → CapState (resolveF cardAt diceAt fuel act gs) := by
  intro fuel
  induction fuel with
  | zero => intro act gs h; exact h
  | succ n ih =>
    intro act gs h
    cases act with
    | card pid cid =>
      simp only [resolveF]
      split
      · exact h
      case _ player hp =>
        split
        all_goals (repeat' split)
        all_goals
          first
          | exact h
          | exact capState_potGate _ h
          | exact capState_potGate _ (capState_jailCardGrant hp (by assumption) h)
          | exact capState_potGate _ (capState_addMoney _ _ h)
          | exact capState_potGate _ (capState_addMoney _ _ (capState_setPos _ _ h))
          | exact capState_potGate _ (capState_withPot (capState_addMoney _ _ (capState_setPos _ _ h)) _)
          | exact capState_potGate _ (capState_setPos _ _ (capState_addMoney _ _ h))
          | exact capState_potGate _ (capState_setPos _ _ h)
          | exact capState_goToJail _ h
          | (refine capState_addMoney _ _ (capState_mapGeneric _ ?_ ?_ h) <;>
              (intro e; by_cases hb : (e.1 == pid) = true <;> simp [hb]))
          | exact capState_setPos _ _ h
          | exact capState_transferRent _ _ _ (capState_setPos _ _ h)
          | exact ih _ _ (capState_setPos _ _ h)
    | landing pid newPos dice =>
      simp only [resolveF]
      split
      · exact h
      case _ square hsq =>
        split
        · exact h
        case _ player hp =>
          split
          all_goals (repeat' split)
          all_goals
            first
            | exact h
            | exact capState_addMoney _ _ h
            | exact capState_handlePayment _ _ _ h
            | exact capState_withPot (capState_addMoney _ _ h) _
            | (refine capState_withPot (capState_updatePlayer ?_ h) _
               intro p
               rfl)
            | exact capState_goToJail _ h
            | exact ih _ _ h

end Monopoly

namespace Monopoly

/-- C10: drawing a "Get out of Jail Free" card (TC01 or S05) increments the
    drawer's count only when it is currently below 1 and otherwise leaves it
    unchanged; consequently the cap "every player holds at most one card" is
    preserved by every single resolution step and by every sequence of card
    draws. -/
theorem jailCardGrant_capped (cardAt : Nat → String) (diceAt : Nat → Int) :
    (∀ fuel gs pid p, getKey gs.players pid = some p →
       jailCardsAt (handleCardAction cardAt diceAt fuel gs pid "TC01") pid =
         some (if p.getOutOfJailFreeCards < 1 then p.getOutOfJailFreeCards + 1
               else p.getOutOfJailFreeCards) ∧
       jailCardsAt (handleCardAction cardAt diceAt fuel gs pid "S05") pid =
         some (if p.getOutOfJailFreeCards < 1 then p.getOutOfJailFreeCards + 1
               else p.getOutOfJailFreeCards)) ∧
    (∀ fuel act gs, CapState gs → CapState (resolveF cardAt diceAt fuel act gs)) ∧
    (∀ gs (draws : List (PlayerId × String × Nat)), CapState gs →
       CapState (draws.foldl
         (fun s d => handleCardAction cardAt diceAt d.2.2 s d.1 d.2.1) gs)) := by
  refine ⟨?_, resolveF_capState cardAt diceAt, ?_⟩
  · intro fuel gs pid p hp
    constructor
    · simp only [handleCardAction, resolveF, hp]
      by_cases hc : p.getOutOfJailFreeCards < 1
      · rw [if_pos hc, if_pos hc]
        simp [potGate, jailCardsAt, getKey_updatePlayer, hp]
      · rw [if_neg hc, if_neg hc]
        simp [potGate, jailCardsAt, hp]
    · simp only [handleCardAction, resolveF, hp]
      by_cases hc : p.getOutOfJailFreeCards < 1
      · rw [if_pos hc, if_pos hc]
        simp [potGate, jailCardsAt, getKey_updatePlayer, hp]
      · rw [if_neg hc, if_neg hc]
        simp [potGate, jailCardsAt, hp]
  · intro gs draws
    induction draws generalizing gs with
    | nil => intro h; exact h
    | cons d rest ihd =>
      intro h
      simp only [List.foldl_cons]
      exact ihd _ (resolveF_capState cardAt diceAt _ _ _ h)

/-- One-player fixture holding no jail card. -/
def gsCard : GameState := mkState [("p1", mkPlayer "p1" 100)] []

/-- Witness for `jailCardGrant_capped` with constant oracles at `gsCard`. -/
theorem jailCardGrant_capped_witness :
    (jailCardsAt (handleCardAction (fun _ => "TC01") (fun _ => 7) 3 gsCard "p1" "TC01") "p1" =
       some (if (mkPlayer "p1" 100).getOutOfJailFreeCards < 1 then
               (mkPlayer "p1" 100).getOutOfJailFreeCards + 1
             else (mkPlayer "p1" 100).getOutOfJailFreeCards)) ∧
    CapState gsCard ∧
    CapState (([("p1", "TC01", 2), ("p1", "S05", 2)] :
        List (PlayerId × String × Nat)).foldl
      (fun s d => handleCardAction (fun _ => "TC01") (fun _ => 7) d.2.2 s d.1 d.2.1) gsCard) :=
  ⟨((jailCardGrant_capped (fun _ => "TC01") (fun _ => 7)).1 3 gsCard "p1"
      (mkPlayer "p1" 100) (by decide)).1,
   by decide,
   (jailCardGrant_capped (fun _ => "TC01") (fun _ => 7)).2.2 gsCard
     [("p1", "TC01", 2), ("p1", "S05", 2)] (by decide)⟩

end Monopoly

namespace Monopoly

/-! ### Integrality of money (spec §"money is a signed integer") -/

/-- A rational holds an integer dollar amount. -/
def IsInt (q : ℚ) : Prop := q.den = 1

instance (q : ℚ) : Decidable (IsInt q) := by
  unfold IsInt
  infer_instance

theorem isInt_iff {q : ℚ} : IsInt q ↔ ∃ z : ℤ, q = (z : ℚ) := by
  constructor
  · intro h
    exact ⟨q.num, ((Rat.den_eq_one_iff q).mp h).symm⟩
  · rintro ⟨z, rfl⟩
    exact Rat.den_intCast z

theorem isInt_intCast (z : ℤ) : IsInt ((z : ℤ) : ℚ) :=
  Rat.den_intCast z

theorem isInt_zero : IsInt (0 : ℚ) := by
  rw [isInt_iff]
  exact ⟨0, by norm_num⟩

theorem isInt_add {a b : ℚ} (ha : IsInt a) (hb : IsInt b) : IsInt (a + b) := by
  rw [isInt_iff] at *
  obtain ⟨x, rfl⟩ := ha
  obtain ⟨y, rfl⟩ := hb
  exact ⟨x + y, by push_cast; ring⟩

theorem isInt_neg {a : ℚ} (ha : IsInt a) : IsInt (-a) := by
  rw [isInt_iff] at *
  obtain ⟨x, rfl⟩ := ha
  exact ⟨-x, by push_cast; ring⟩

theorem isInt_sub {a b : ℚ} (ha : IsInt a) (hb : IsInt b) : IsInt (a - b) := by
  rw [isInt_iff] at *
  obtain ⟨x, rfl⟩ := ha
  obtain ⟨y, rfl⟩ := hb
  exact ⟨x - y, by push_cast; ring⟩

theorem isInt_mul {a b : ℚ} (ha : IsInt a) (hb : IsInt b) : IsInt (a * b) := by
  rw [isInt_iff] at *
  obtain ⟨x, rfl⟩ := ha
  obtain ⟨y, rfl⟩ := hb
  exact ⟨x * y, by push_cast; ring⟩

theorem isInt_lit (n : ℕ) : IsInt ((n : ℕ) : ℚ) := by
  rw [isInt_iff]
  exact ⟨n, by push_cast; ring⟩

/-- `cost / 2` is whole exactly when the cost is even. -/
theorem isInt_half {z : ℤ} (h : z % 2 = 0) : IsInt ((z : ℚ) / 2) := by
  obtain ⟨k, hk⟩ : ∃ k, z = 2 * k := ⟨z / 2, by omega⟩
  subst hk
  rw [isInt_iff]
  exact ⟨k, by push_cast; ring⟩

/-- The unmortgage debit `(cost / 2) * 1.1` is whole exactly when the cost is
    a multiple of 20. -/
theorem isInt_unmortgage {z : ℤ} (h : z % 20 = 0) :
    IsInt (((z : ℚ) / 2) * (11 / 10)) := by
  obtain ⟨k, hk⟩ : ∃ k, z = 20 * k := ⟨z / 20, by omega⟩
  subst hk
  rw [isInt_iff]
  exact ⟨11 * k, by push_cast; ring⟩

/-- Every player's balance is an integer number of dollars. -/
def MoneyInt (gs : GameState) : Prop :=
  ∀ e ∈ gs.players, IsInt e.2.money

instance (gs : GameState) : Decidable (MoneyInt gs) := by
  unfold MoneyInt
  infer_instance

theorem moneyInt_players_eq {gs' : GameState} {l : List (PlayerId × Player)}
    (hp : gs'.players = l) (h : ∀ e ∈ l, IsInt e.2.money) : MoneyInt gs' := by
  intro e he
  exact h e (hp ▸ he)

theorem moneyInt_updatePlayer {gs : GameState} {pid : PlayerId} {f : Player → Player}
    (hf : ∀ p, IsInt p.money → IsInt (f p).money)
    (h : MoneyInt gs) : MoneyInt (updatePlayer gs pid f) := by
  intro e' he'
  rw [updatePlayer_players] at he'
  obtain ⟨e, he, rfl⟩ := mem_modKey he'
  by_cases hk : (e.1 == pid) = true
  · rw [if_pos hk]
    exact hf _ (h e he)
  · rw [if_neg hk]
    exact h e he

theorem moneyInt_addMoney {gs : GameState} (pid : PlayerId) {d : ℚ} (hd : IsInt d)
    (h : MoneyInt gs) : MoneyInt (addMoney gs pid d) :=
  moneyInt_updatePlayer (fun _ hp => isInt_add hp hd) h

theorem moneyInt_goToJail {gs : GameState} (pid : PlayerId) (h : MoneyInt gs) :
    MoneyInt (goToJail gs pid) := by
  unfold goToJail
  have h2 := @moneyInt_updatePlayer gs pid
    (fun p => { p with position := 14, animatedPosition := 14, inJail := true, jailTurns := 1, doublesCount := 0 })
    (fun _ hp => hp) h
  exact fun e he => h2 e he

theorem mem_setKey {l : List (String × α)} {k : String} {v : α} {e : String × α}
    (he : e ∈ setKey l k v) : e = (k, v) ∨ e ∈ l := by
  simp only [setKey, List.mem_map] at he
  obtain ⟨e₀, he₀, rfl⟩ := he
  by_cases hk : (e₀.1 == k) = true
  · rw [if_pos hk]
    exact Or.inl rfl
  · rw [if_neg hk]
    exact Or.inr he₀

end Monopoly

namespace Monopoly

theorem isInt_ofNat (n : ℕ) [n.AtLeastTwo] : IsInt (OfNat.ofNat n : ℚ) := by
  rw [isInt_iff]
  exact ⟨(n : ℤ), by push_cast; rfl⟩

theorem isInt_one : IsInt (1 : ℚ) := by
  rw [isInt_iff]
  exact ⟨1, by norm_num⟩

theorem isIntList_map {l : List (String × Player)} {F : (String × Player) → (String × Player)}
    (hF : ∀ e, IsInt e.2.money → IsInt (F e).2.money)
    (h : ∀ e ∈ l, IsInt e.2.money) : ∀ e ∈ l.map F, IsInt e.2.money := by
  intro e' he'
  obtain ⟨e, he, rfl⟩ := List.mem_map.mp he'
  exact hF e (h e he)

/-- Integrality of a state whose player map rewrites an integral list
    entrywise without breaking balance integrality. -/
theorem moneyInt_of_map {gs' : GameState} {l : List (String × Player)}
    {F : (String × Player) → (String × Player)}
    (hps : gs'.players = l.map F)
    (hF : ∀ e, IsInt e.2.money → IsInt (F e).2.money)
    (h : ∀ e ∈ l, IsInt e.2.money) : MoneyInt gs' := by
  intro e' he'
  rw [hps] at he'
  exact isIntList_map hF h e' he'

theorem moneyInt_payJailFine {gs : GameState} (pid : PlayerId) (h : MoneyInt gs) :
    MoneyInt (payJailFine gs pid) := by
  unfold payJailFine
  split
  all_goals try exact h
  dsimp only
  split_ifs
  all_goals first
    | exact h
    | (refine moneyInt_of_map rfl (fun e hp => ?_) h
       dsimp only
       split_ifs <;>
         first
           | exact hp
           | exact isInt_sub hp (isInt_add (isInt_ofNat 100)
               (isInt_mul (isInt_intCast _) (isInt_ofNat 20)))
           | exact isInt_sub hp (isInt_ofNat 100))

theorem moneyInt_handleUsePardonCard {gs : GameState} (pid : PlayerId) (h : MoneyInt gs) :
    MoneyInt (handleUsePardonCard gs pid) := by
  unfold handleUsePardonCard
  split
  all_goals try exact h
  split_ifs
  · exact h
  · refine moneyInt_of_map rfl (fun e hp => ?_) h
    dsimp only
    split_ifs <;> exact hp

theorem moneyInt_buyProperty {gs : GameState} (pid : PlayerId) (pos : Nat)
    (h : MoneyInt gs) : MoneyInt (buyProperty gs pid pos) := by
  unfold buyProperty
  dsimp only
  repeat' split
  all_goals first
    | exact h
    | (refine moneyInt_of_map rfl (fun e hp => ?_) h
       dsimp only
       split_ifs <;>
         first
           | exact hp
           | (rw [setArr_money]; exact isInt_sub hp (isInt_intCast _)))

theorem moneyInt_buildHouse {gs : GameState} (pid cityId : String) (h : MoneyInt gs) :
    MoneyInt (buildHouse gs pid cityId) := by
  unfold buildHouse
  dsimp only
  repeat' split
  all_goals first
    | exact h
    | (refine moneyInt_of_map rfl (fun e hp => ?_) h
       dsimp only
       split_ifs <;>
         first
           | exact hp
           | exact isInt_sub hp (isInt_intCast _))

theorem countryData_houseCost_even : ∀ e ∈ countryData, e.2.houseCost % 2 = 0 := by
  decide

theorem moneyInt_sellHouse {gs : GameState} (pid cityId : String) (h : MoneyInt gs) :
    MoneyInt (sellHouse gs pid cityId) := by
  unfold sellHouse
  split
  all_goals try exact h
  split
  all_goals try exact h
  rename_i countryInfo heqc
  have hev : countryInfo.houseCost % 2 = 0 :=
    countryData_houseCost_even _ (getKey_mem heqc)
  dsimp only
  split_ifs
  all_goals first
    | exact h
    | (refine moneyInt_of_map rfl (fun e hp => ?_) h
       dsimp only
       split_ifs <;>
         first
           | exact hp
           | exact isInt_add hp (isInt_half hev))

theorem moneyInt_handleBankruptcy {gs : GameState} (pid : PlayerId) (h : MoneyInt gs) :
    MoneyInt (handleBankruptcy gs pid) := by
  unfold handleBankruptcy
  dsimp only
  split_ifs
  · exact moneyInt_players_eq rfl h
  · split
    all_goals
      (intro e he
       exact h e (List.mem_of_mem_filter he))

theorem moneyInt_handleEndTurn {gs : GameState} (h : MoneyInt gs) :
    MoneyInt (handleEndTurn gs) := by
  unfold handleEndTurn
  dsimp only
  repeat' split
  all_goals first
    | exact h
    | (refine moneyInt_of_map rfl (fun e hp => ?_) h
       dsimp only
       split_ifs <;> exact hp)
    | (refine moneyInt_of_map rfl (fun e hp => ?_) (isIntList_map (fun e hp => ?_) h)
       all_goals (dsimp only; split_ifs <;> exact hp))
    | (refine moneyInt_of_map rfl (fun e hp => ?_)
         (isIntList_map (fun e hp => ?_) (isIntList_map (fun e hp => ?_) h))
       all_goals (dsimp only; split_ifs <;> exact hp))
    | (refine moneyInt_players_eq rfl (isIntList_map (fun e hp => ?_) h)
       all_goals (dsimp only; split_ifs <;> exact hp))
    | (refine moneyInt_players_eq rfl
         (isIntList_map (fun e hp => ?_) (isIntList_map (fun e hp => ?_) h))
       all_goals (dsimp only; split_ifs <;> exact hp))

theorem isInt_rentEntry (sq : BoardSquare) (i : Int) : IsInt (rentEntry sq i) := by
  unfold rentEntry
  split
  · exact isInt_zero
  · exact isInt_intCast _

theorem rentOf_isInt {sq : BoardSquare} {st : PropertyState} {owner : Player}
    {settings : GameSettings} {dice : Int} {r : ℚ}
    (h : rentOf sq st owner settings dice = some r) : IsInt r := by
  unfold rentOf at h
  split at h
  · split at h
    · exact absurd h (by simp)
    · cases Option.some.inj h
      split_ifs
      all_goals first
        | exact isInt_rentEntry _ _
        | exact isInt_mul (isInt_rentEntry _ _) (isInt_ofNat 2)
  · cases Option.some.inj h
    exact isInt_rentEntry _ _
  · cases Option.some.inj h
    exact isInt_rentEntry _ _
  · cases Option.some.inj h
    split_ifs
    · exact isInt_mul (isInt_ofNat 4) (isInt_intCast _)
    · exact isInt_mul (isInt_ofNat 10) (isInt_intCast _)
  · exact absurd h (by simp)

theorem moneyInt_handlePayment {gs : GameState} (renterId pos : String) (dice : Int)
    (h : MoneyInt gs) : MoneyInt (handlePayment gs renterId pos dice) := by
  unfold handlePayment
  split
  · split
    · exact h
    · split_ifs with h1
      · exact h
      · split
        · split_ifs with h2
          · exact h
          · split
            · exact h
            · rename_i rentAmount hrent
              have hr : IsInt rentAmount := rentOf_isInt hrent
              refine moneyInt_of_map rfl (fun e hp => ?_)
                (isIntList_map (fun e hp => ?_) h)
              all_goals
                (dsimp only
                 split_ifs <;>
                   first
                     | exact hp
                     | exact isInt_add hp hr
                     | exact isInt_add hp (isInt_neg hr))
        · exact h
  · exact h

theorem moneyInt_placeBid {gs : GameState} (pid : PlayerId) (amt : ℚ) (h : MoneyInt gs) :
    MoneyInt (placeBid gs pid amt) := by
  unfold placeBid
  dsimp only
  repeat' split
  all_goals first
    | exact h
    | exact moneyInt_players_eq rfl h

theorem moneyInt_startAuction {gs : GameState} (propId : PropertyId) (bid : ℚ)
    (seller : Option PlayerId) (h : MoneyInt gs) :
    MoneyInt (startAuction gs propId bid seller) := by
  unfold startAuction
  dsimp only
  repeat' split
  all_goals first
    | exact h
    | exact moneyInt_players_eq rfl h

theorem moneyInt_handleRejectTrade {gs : GameState} (tid : String) (h : MoneyInt gs) :
    MoneyInt (handleRejectTrade gs tid) := by
  unfold handleRejectTrade
  split
  · exact h
  · exact moneyInt_players_eq rfl h

theorem moneyInt_handleRollDice {gs : GameState} (pid : PlayerId) (die1 die2 : Nat)
    (h : MoneyInt gs) : MoneyInt (handleRollDice gs pid die1 die2) := by
  unfold handleRollDice
  dsimp only
  repeat' split
  all_goals first
    | exact h
    | exact moneyInt_handleEndTurn h
    | exact moneyInt_goToJail _ h
    | (refine moneyInt_of_map rfl (fun e hp => ?_) h
       dsimp only
       split_ifs <;> exact hp)
    | (refine moneyInt_of_map rfl (fun e hp => ?_) (isIntList_map (fun e hp => ?_) h)
       all_goals
         (dsimp only
          split_ifs <;>
            first
              | exact hp
              | exact isInt_add hp (isInt_ofNat 200)))

end Monopoly

namespace Monopoly

theorem moneyInt_sellProperty {gs : GameState} (pid : PlayerId) (propId : PropertyId)
    (heven : ∀ sq, getKey initialBoardState propId = some sq → sq.cost % 2 = 0)
    (h : MoneyInt gs) : MoneyInt (sellProperty gs pid propId) := by
  unfold sellProperty
  split
  all_goals try exact h
  dsimp only
  split_ifs
  all_goals try exact h
  split
  all_goals try exact h
  refine moneyInt_of_map rfl (fun e hp => ?_) h
  dsimp only
  split_ifs
  all_goals first
    | exact hp
    | (rw [setArr_money]
       exact isInt_add hp (isInt_half (heven _ (by assumption))))
    | exact isInt_add hp (isInt_half (heven _ (by assumption)))

theorem moneyInt_mortgageProperty {gs : GameState} (pid : PlayerId) (propId : PropertyId)
    (heven : ∀ sq, getKey initialBoardState propId = some sq → sq.cost % 2 = 0)
    (h : MoneyInt gs) : MoneyInt (mortgageProperty gs pid propId) := by
  unfold mortgageProperty
  split_ifs
  all_goals try exact h
  split
  all_goals try exact h
  dsimp only
  split_ifs
  all_goals try exact h
  refine moneyInt_of_map rfl (fun e hp => ?_) h
  dsimp only
  split_ifs
  all_goals first
    | exact hp
    | exact isInt_add hp (isInt_half (heven _ (by assumption)))

theorem moneyInt_unmortgageProperty {gs : GameState} (pid : PlayerId) (propId : PropertyId)
    (hdvd : ∀ sq, getKey initialBoardState propId = some sq → sq.cost % 20 = 0)
    (h : MoneyInt gs) : MoneyInt (unmortgageProperty gs pid propId) := by
  unfold unmortgageProperty
  split_ifs
  all_goals try exact h
  split
  all_goals try exact h
  dsimp only
  split_ifs
  all_goals try exact h
  refine moneyInt_of_map rfl (fun e hp => ?_) h
  dsimp only
  split_ifs
  all_goals first
    | exact hp
    | exact isInt_add hp (isInt_neg (isInt_unmortgage (hdvd _ (by assumption))))

theorem moneyInt_endAuction {gs : GameState}
    (hbids : ∀ e ∈ gs.auction.bids, IsInt e.2) (h : MoneyInt gs) :
    MoneyInt (endAuction gs) := by
  unfold endAuction
  split
  all_goals try exact h
  split
  all_goals try exact h
  dsimp only
  split
  · exact moneyInt_players_eq rfl h
  · split
    all_goals try exact h
    rename_i x2 hbId amt hmax x1 x0 winner cat hwin hcat
    have hwm : IsInt winner.money := h _ (getKey_mem hwin)
    have hamt : IsInt amt := hbids _ (maxBidEntry_mem hmax)
    split
    · -- a seller collects the bid minus the floored tax
      split_ifs
      all_goals
        (refine moneyInt_of_map rfl (fun e hp => ?_)
           (isIntList_map (fun e hp => ?_) h)
         all_goals
           (dsimp only
            split_ifs
            all_goals first
              | exact hp
              | (rw [setArr_money]; exact isInt_sub hwm hamt)
              | exact isInt_add hp (isInt_sub hamt (isInt_intCast _))))
    · refine moneyInt_of_map rfl (fun e hp => ?_) h
      dsimp only
      split_ifs
      all_goals first
        | exact hp
        | (rw [setArr_money]; exact isInt_sub hwm hamt)

theorem moneyInt_handleAcceptTrade {gs : GameState} (tid : String)
    (hof : ∀ t, getKey gs.trades tid = some t →
      IsInt t.offer.money ∧ IsInt t.request.money)
    (h : MoneyInt gs) : MoneyInt (handleAcceptTrade gs tid) := by
  unfold handleAcceptTrade
  split
  all_goals try exact h
  rename_i trade htr
  split
  all_goals try exact h
  rename_i fromPlayer toPlayer hfrom hto
  split_ifs
  all_goals try exact h
  obtain ⟨ho, hr⟩ := hof _ htr
  have hf : IsInt fromPlayer.money := h _ (getKey_mem hfrom)
  have ht : IsInt toPlayer.money := h _ (getKey_mem hto)
  intro e he
  dsimp only at he
  rcases mem_setKey he with rfl | he1
  · dsimp only
    rw [(moveProps_money_id _ _ _ _).1, (moveProps_money_id _ _ _ _).2.2.1]
    exact isInt_sub (isInt_add ht ho) hr
  · rcases mem_setKey he1 with rfl | he2
    · dsimp only
      rw [(moveProps_money_id _ _ _ _).2.2.1, (moveProps_money_id _ _ _ _).1]
      exact isInt_add (isInt_sub hf ho) hr
    · exact h e he2

end Monopoly

namespace Monopoly

/-- One player holding $1000 and the mortgaged Harbour 1 (square "10",
    cost $150, not a multiple of 20). -/
def gsC9 : GameState :=
  mkState [("p1", mkPlayer "p1" 1000)]
    [("10", { owner := some "p1", houses := 0, hotels := 0, mortgaged := true })]

/-- C9 counterexample: in `gsC9` every balance is integral, yet unmortgaging
    Harbour 1 debits `(150 / 2) * 1.1 = 82.5`, leaving "p1" with the
    non-integer balance `917.5 = 1835/2`. -/
theorem unmortgage_fractional_cex :
    MoneyInt gsC9 ∧
    moneyAt (unmortgageProperty gsC9 "p1" "10") "p1" = some (1835 / 2) ∧
    ¬ IsInt ((1835 : ℚ) / 2) := by
  refine ⟨by decide, ?_, ?_⟩
  · have hinfo : getKey initialBoardState "10" =
        some { type := .harbour, cost := 150, rent := [50, 100, 150, 200] } := rfl
    have hp : getKey gsC9.players "p1" = some (mkPlayer "p1" 1000) := rfl
    have hst : getKey gsC9.board "10" =
        some { owner := some "p1", houses := 0, hotels := 0, mortgaged := true } := rfl
    simp only [unmortgageProperty, hinfo, hp, hst]
    rw [if_neg (by decide : ¬ ((!gsC9.settings.allowMortgage) = true))]
    rw [if_neg (by norm_num [mkPlayer] :
      ¬ ((mkPlayer "p1" 1000).money < (((150 : ℤ) : ℚ) / 2) * (11 / 10)))]
    rw [if_neg (by intro hh; exact hh rfl :
      ¬ (({ owner := some "p1", houses := 0, hotels := 0, mortgaged := true }
          : PropertyState).owner ≠ some "p1"))]
    simp only [moneyAt, addMoney, updatePlayer, gsC9, mkState, modKey, getKey,
      List.map, List.find?, mkPlayer]
    norm_num
  · rw [isInt_iff]
    rintro ⟨z, hz⟩
    have h2 : (1835 : ℤ) = z * 2 := by
      have := hz
      field_simp at this
      exact_mod_cast this
    omega

end Monopoly

namespace Monopoly

/-- The exact rent computation of `handlePayment`'s `switch`, distinguishing
    its one unguarded table read: the hotel override is `rentAmount =
    squareInfo.rent[5]` with no `|| 0` fallback (unlike every other rent
    read), so on a table with fewer than six entries the source computes
    `undefined` and the subsequent `increment(±rentAmount)` writes store
    `NaN` in both balances.  `none` models the `default: return` branch (no
    write), `some none` the undefined hotel read (a NaN-corrupting run), and
    `some (some r)` a defined rent of `r`.  `rentOf` is this function with
    the undefined read collapsed to 0. -/
def rentOfE (squareInfo : BoardSquare) (squareState : PropertyState) (owner : Player)
    (settings : GameSettings) (diceRoll : Int) : Option (Option ℚ) :=
  match squareInfo.type with
  | .city =>
    match getKey countryData squareInfo.country with
    | none => none
    | some country =>
      let ownerHasMonopoly := country.cities.all (fun cityId => owner.cities.contains (toString cityId))
      let base : ℚ :=
        if ownerHasMonopoly then
          if squareState.houses == 0 && settings.doubleRentOnMonopoly then
            rentEntry squareInfo 0 * 2
          else rentEntry squareInfo squareState.houses
        else rentEntry squareInfo 0
      if squareState.hotels > 0 then
        some ((squareInfo.rent.get? 5).map (fun z => ((z : Int) : ℚ)))
      else some (some base)
  | .airport => some (some (rentEntry squareInfo ((owner.airports.length : Int) - 1)))
  | .harbour => some (some (rentEntry squareInfo ((owner.harbours.length : Int) - 1)))
  | .company =>
    some (some ((if owner.companies.length == 1 then (4 : ℚ) else 10) * (diceRoll : ℚ)))
  | _ => none

/-- `handlePayment`, exactly: `none` is the run whose `updateDoc` writes
    `NaN` into both balances (the undefined hotel rent at a five-entry
    table), which leaves the game document outside the rational-money state
    space; `some` is every other run. -/
def handlePaymentE (gs : GameState) (renterId : PlayerId) (squarePosition : PropertyId)
    (diceRoll : Int) : Option GameState :=
  match getKey initialBoardState squarePosition, getKey gs.board squarePosition with
  | some squareInfo, some squareState =>
    match squareState.owner with
    | none => some gs
    | some ownerId =>
      if ownerId == renterId || squareState.mortgaged then some gs
      else
        match getKey gs.players renterId, getKey gs.players ownerId with
        | some _renter, some owner =>
          if owner.inJail && !gs.settings.rentInJail then some gs
          else
            match rentOfE squareInfo squareState owner gs.settings diceRoll with
            | none => some gs
            | some none => none
            | some (some rentAmount) =>
              some (addMoney (addMoney gs renterId (-rentAmount)) ownerId rentAmount)
        | _, _ => some gs
  | _, _ => some gs

/-- `buyProperty`, exactly: the source has no ownable-type guard — on a
    present square whose type is not in `propertyTypeMap` the static entry
    has no `cost` field, `player.money < property.cost` compares against
    `undefined` (false), and the write debits `undefined` (NaN money),
    pushes into a field literally named "undefined" and sets the board
    owner.  In the source data exactly the non-ownable squares lack `cost`,
    so that corrupting run is the error result `none`; a missing player or
    position throws on a property read before any write (state unchanged). -/
def buyPropertyE (gs : GameState) (playerId : PlayerId) (propertyPosition : Nat) :
    Option GameState :=
  match getKey gs.players playerId, getKey initialBoardState (toString propertyPosition) with
  | some player, some property =>
    match propertyTypeMap property.type with
    | none => none
    | some cat =>
      if player.money < (property.cost : ℚ) then some gs
      else
        let gs := updatePlayer gs playerId (fun p =>
          setArr { p with money := p.money - (property.cost : ℚ) } cat
            (arrayUnion (getArr p cat) (toString propertyPosition)))
        let newBoard := modKey gs.board (toString propertyPosition)
          (fun ps => { ps with owner := some playerId })
        some { gs with board := newBoard }
  | _, _ => some gs

/-- A defined `rentOfE` rent is the `rentOf` rent (the 0-collapse only
    differs on the undefined hotel read). -/
theorem rentOfE_defined {sq : BoardSquare} {st : PropertyState} {owner : Player}
    {settings : GameSettings} {dice : Int} {r : ℚ}
    (h : rentOfE sq st owner settings dice = some (some r)) :
    rentOf sq st owner settings dice = some r := by
  unfold rentOfE at h
  unfold rentOf
  cases htype : sq.type
  all_goals rw [htype] at h
  case city =>
    dsimp only at h ⊢
    cases hc : getKey countryData sq.country with
    | none =>
      rw [hc] at h
      exact absurd h (by simp)
    | some country =>
      rw [hc] at h
      dsimp only at h ⊢
      by_cases hh : st.hotels > 0
      · rw [if_pos hh] at h
        rw [if_pos hh]
        have h2 := Option.some.inj h
        cases h5 : sq.rent.get? 5 with
        | none =>
          rw [h5] at h2
          exact absurd h2 (by simp)
        | some z =>
          rw [h5] at h2
          have h3 := Option.some.inj h2
          rw [← h3]
          have : rentEntry sq 5 = ((z : Int) : ℚ) := by
            unfold rentEntry
            rw [if_neg (by norm_num)]
            rw [show ((5 : Int)).toNat = 5 from rfl, h5]
            rfl
          rw [this]
      · rw [if_neg hh] at h
        rw [if_neg hh]
        have h2 := Option.some.inj (Option.some.inj h)
        rw [h2]
  case airport => exact Option.some.inj h
  case harbour => exact Option.some.inj h
  case company => exact Option.some.inj h
  all_goals exact absurd h (by simp)

/-- Money integrality of every successful (non-NaN) `handlePaymentE` run. -/
theorem moneyInt_handlePaymentE {gs : GameState} {renterId pos : String} {dice : Int}
    {gs' : GameState} (he : handlePaymentE gs renterId pos dice = some gs')
    (h : MoneyInt gs) : MoneyInt gs' := by
  unfold handlePaymentE at he
  repeat' split at he
  all_goals first
    | (cases he <;> exact h)
    | (cases he <;>
        (refine moneyInt_of_map rfl (fun e hp => ?_) (isIntList_map (fun e hp => ?_) h)
         all_goals
           (dsimp only
            split_ifs <;>
              first
                | exact hp
                | exact isInt_add hp (rentOf_isInt (rentOfE_defined (by assumption)))
                | exact isInt_add hp
                    (isInt_neg (rentOf_isInt (rentOfE_defined (by assumption)))))))

/-- Money integrality of every successful (non-NaN) `buyPropertyE` run. -/
theorem moneyInt_buyPropertyE {gs : GameState} {pid : PlayerId} {pos : Nat}
    {gs' : GameState} (he : buyPropertyE gs pid pos = some gs')
    (h : MoneyInt gs) : MoneyInt gs' := by
  unfold buyPropertyE at he
  repeat' split at he
  all_goals first
    | (cases he <;> exact h)
    | (cases he <;>
        (refine moneyInt_of_map rfl (fun e hp => ?_) h
         dsimp only
         split_ifs <;>
           first
             | exact hp
             | (rw [setArr_money]; exact isInt_sub hp (isInt_intCast _))))

end Monopoly

namespace Monopoly

/-- The transfer effect of a defined-rent `handlePaymentE` run: it is exactly
    the `handlePayment` run, debiting the renter and crediting the owner
    (shared helper). -/
theorem handlePaymentE_transfer (gs : GameState) (renterId pos : String) (dice : Int)
    (sq : BoardSquare) (st : PropertyState) (ownerId : PlayerId) (owner renter : Player)
    (rent : ℚ)
    (hsq : getKey initialBoardState pos = some sq)
    (hst : getKey gs.board pos = some st)
    (howner : st.owner = some ownerId)
    (hguard : (ownerId == renterId || st.mortgaged) = false)
    (hren : getKey gs.players renterId = some renter)
    (how : getKey gs.players ownerId = some owner)
    (hjail : (owner.inJail && !gs.settings.rentInJail) = false)
    (hrentE : rentOfE sq st owner gs.settings dice = some (some rent)) :
    handlePaymentE gs renterId pos dice = some (handlePayment gs renterId pos dice) ∧
    moneyAt (handlePayment gs renterId pos dice) renterId = some (renter.money - rent) ∧
    (renterId ≠ ownerId →
      moneyAt (handlePayment gs renterId pos dice) ownerId = some (owner.money + rent)) := by
  have hrent : rentOf sq st owner gs.settings dice = some rent := rentOfE_defined hrentE
  refine ⟨?_, handlePayment_transfer gs renterId pos dice sq st ownerId owner renter rent
    hsq hst howner hguard hren how hjail hrent⟩
  simp [handlePaymentE, handlePayment, hsq, hst, howner, hguard, hren, how, hjail,
    hrentE, hrent]

/-- A hotel on a city square whose table lacks a sixth entry makes the
    payment write NaN: the exact run is the error result (shared helper). -/
theorem handlePaymentE_nan (gs : GameState) (renterId pos : String) (dice : Int)
    (sq : BoardSquare) (st : PropertyState) (ownerId : PlayerId) (owner renter : Player)
    (country : CountryInfo)
    (hsq : getKey initialBoardState pos = some sq)
    (hst : getKey gs.board pos = some st)
    (howner : st.owner = some ownerId)
    (hguard : (ownerId == renterId || st.mortgaged) = false)
    (hren : getKey gs.players renterId = some renter)
    (how : getKey gs.players ownerId = some owner)
    (hjail : (owner.inJail && !gs.settings.rentInJail) = false)
    (htype : sq.type = .city)
    (hc : getKey countryData sq.country = some country)
    (hhot : st.hotels > 0)
    (h5 : sq.rent.get? 5 = none) :
    handlePaymentE gs renterId pos dice = none := by
  have hrentE : rentOfE sq st owner gs.settings dice = some none := by
    unfold rentOfE
    rw [htype]
    dsimp only
    rw [hc]
    dsimp only
    rw [if_pos hhot, h5]
    rfl
  simp [handlePaymentE, hsq, hst, howner, hguard, hren, how, hjail, hrentE]

/-- Two-player fixture with a hotel recorded on Melbourne ("51", five-entry
    rent table) owned by "o", who holds no Australia monopoly. -/
def gs51 : GameState :=
  mkState [("r", mkPlayer "r" 1000), ("o", { mkPlayer "o" 200 with cities := ["51"] })]
    [("51", { owner := some "o", houses := 0, hotels := 1, mortgaged := false })]

/-- C7 counterexample: Melbourne's rent table has five entries, so with a
    hotel recorded there (reachable through `buildHouse`) the hotel override
    reads `rent[5] = undefined` and the payment writes `NaN` into both
    balances — the transfer that occurs is not of a non-negative amount, and
    the exact model hits its error result. -/
theorem handlePayment_nan_cex :
    boardAt gs51 "51" =
      some { owner := some "o", houses := 0, hotels := 1, mortgaged := false } ∧
    (getKey initialBoardState "51").map (fun sq => sq.rent.get? 5) = some none ∧
    handlePaymentE gs51 "r" "51" 7 = none := by
  decide

/-- C7 (amended): landing-triggered rent moves no money when the square is
    unowned, self-owned, mortgaged, or its owner is jailed with `rentInJail`
    off; every defined transfer is of a non-negative amount, debited from
    the renter and credited to the owner — but the hotel override reads the
    rent table at index 5 with no fallback, so on a hotel square whose table
    has no sixth entry (Melbourne, "51") the run instead writes NaN into
    both balances (the error result of the exact model). -/
theorem handlePaymentE_guards (gs : GameState) (renterId pos : String) (dice : Int)
    (hd : 0 ≤ dice) :
    (∀ st, getKey gs.board pos = some st →
      (st.owner = none ∨ st.owner = some renterId ∨ st.mortgaged = true ∨
       (∃ ownerId owner, st.owner = some ownerId ∧
          getKey gs.players ownerId = some owner ∧
          owner.inJail = true ∧ gs.settings.rentInJail = false)) →
      handlePaymentE gs renterId pos dice = some gs) ∧
    (∀ sq st owner rent, getKey initialBoardState pos = some sq →
      rentOfE sq st owner gs.settings dice = some (some rent) → 0 ≤ rent) ∧
    (∀ sq st ownerId owner renter rent,
      getKey initialBoardState pos = some sq →
      getKey gs.board pos = some st →
      st.owner = some ownerId →
      (ownerId == renterId || st.mortgaged) = false →
      getKey gs.players renterId = some renter →
      getKey gs.players ownerId = some owner →
      (owner.inJail && !gs.settings.rentInJail) = false →
      rentOfE sq st owner gs.settings dice = some (some rent) →
      0 ≤ rent ∧
      handlePaymentE gs renterId pos dice = some (handlePayment gs renterId pos dice) ∧
      moneyAt (handlePayment gs renterId pos dice) renterId = some (renter.money - rent) ∧
      (renterId ≠ ownerId →
        moneyAt (handlePayment gs renterId pos dice) ownerId = some (owner.money + rent))) ∧
    (∀ sq st ownerId owner renter country,
      getKey initialBoardState pos = some sq →
      getKey gs.board pos = some st →
      st.owner = some ownerId →
      (ownerId == renterId || st.mortgaged) = false →
      getKey gs.players renterId = some renter →
      getKey gs.players ownerId = some owner →
      (owner.inJail && !gs.settings.rentInJail) = false →
      sq.type = .city →
      getKey countryData sq.country = some country →
      st.hotels > 0 →
      sq.rent.get? 5 = none →
      handlePaymentE gs renterId pos dice = none) := by
  refine ⟨?_, ?_, ?_, ?_⟩
  · intro st hst hdisj
    cases hsq : getKey initialBoardState pos with
    | none => simp [handlePaymentE, hsq]
    | some sq =>
      rcases hdisj with h | h | h | ⟨oid, ow, ho, how, hj, hr⟩
      · simp [handlePaymentE, hsq, hst, h]
      · simp [handlePaymentE, hsq, hst, h]
      · cases howner : st.owner with
        | none => simp [handlePaymentE, hsq, hst, howner]
        | some oid => simp [handlePaymentE, hsq, hst, howner, h]
      · by_cases hself : (oid == renterId || st.mortgaged) = true
        · simp [handlePaymentE, hsq, hst, ho, hself]
        · cases hren : getKey gs.players renterId with
          | none =>
            simp [handlePaymentE, hsq, hst, ho, hself, hren]
          | some renter =>
            simp [handlePaymentE, hsq, hst, ho, hself, hren, how, hj, hr]
  · intro sq st owner rent hsq hrent
    exact rentOf_nonneg sq st owner gs.settings dice hd
      (initialBoard_rent_nonneg (pos, sq) (getKey_mem hsq)) (rentOfE_defined hrent)
  · intro sq st ownerId owner renter rent hsq hst howner hguard hren how hjail hrentE
    refine ⟨rentOf_nonneg sq st owner gs.settings dice hd
      (initialBoard_rent_nonneg (pos, sq) (getKey_mem hsq)) (rentOfE_defined hrentE), ?_⟩
    exact handlePaymentE_transfer gs renterId pos dice sq st ownerId owner renter rent
      hsq hst howner hguard hren how hjail hrentE
  · intro sq st ownerId owner renter country hsq hst howner hguard hren how hjail
      htype hc hhot h5
    exact handlePaymentE_nan gs renterId pos dice sq st ownerId owner renter country
      hsq hst howner hguard hren how hjail htype hc hhot h5

/-- Witness for `handlePaymentE_guards` at `gsRent` with dice total 7. -/
theorem handlePaymentE_guards_witness :
    (∀ st, getKey gsRent.board "1" = some st →
      (st.owner = none ∨ st.owner = some "r" ∨ st.mortgaged = true ∨
       (∃ ownerId owner, st.owner = some ownerId ∧
          getKey gsRent.players ownerId = some owner ∧
          owner.inJail = true ∧ gsRent.settings.rentInJail = false)) →
      handlePaymentE gsRent "r" "1" 7 = some gsRent) ∧
    (∀ sq st owner rent, getKey initialBoardState "1" = some sq →
      rentOfE sq st owner gsRent.settings 7 = some (some rent) → 0 ≤ rent) ∧
    (∀ sq st ownerId owner renter rent,
      getKey initialBoardState "1" = some sq →
      getKey gsRent.board "1" = some st →
      st.owner = some ownerId →
      (ownerId == "r" || st.mortgaged) = false →
      getKey gsRent.players "r" = some renter →
      getKey gsRent.players ownerId = some owner →
      (owner.inJail && !gsRent.settings.rentInJail) = false →
      rentOfE sq st owner gsRent.settings 7 = some (some rent) →
      0 ≤ rent ∧
      handlePaymentE gsRent "r" "1" 7 = some (handlePayment gsRent "r" "1" 7) ∧
      moneyAt (handlePayment gsRent "r" "1" 7) "r" = some (renter.money - rent) ∧
      ("r" ≠ ownerId →
        moneyAt (handlePayment gsRent "r" "1" 7) ownerId = some (owner.money + rent))) ∧
    (∀ sq st ownerId owner renter country,
      getKey initialBoardState "1" = some sq →
      getKey gsRent.board "1" = some st →
      st.owner = some ownerId →
      (ownerId == "r" || st.mortgaged) = false →
      getKey gsRent.players "r" = some renter →
      getKey gsRent.players ownerId = some owner →
      (owner.inJail && !gsRent.settings.rentInJail) = false →
      sq.type = .city →
      getKey countryData sq.country = some country →
      st.hotels > 0 →
      sq.rent.get? 5 = none →
      handlePaymentE gsRent "r" "1" 7 = none) :=
  handlePaymentE_guards gsRent "r" "1" 7 (by decide)

end Monopoly

namespace Monopoly

/-- C6 counterexample: in `gsRent` the owner holds no Brazil monopoly, yet
    the hotel on square "1" makes the transfer the hotel rent 450, not the
    base rent 4; and on `gs51` (a hotel on Melbourne, again without
    monopoly) the amount is not even a number — the run corrupts both
    balances to NaN (the exact model's error result). -/
theorem handlePaymentE_noMonopoly_cex :
    (getKey countryData "Brazil").map
      (fun c => c.cities.all (fun cid => ["1"].contains (toString cid))) = some false ∧
    moneyAt (handlePayment gsRent "r" "1" 0) "r" = some 550 ∧
    (550 : ℚ) ≠ 1000 - 4 ∧
    handlePaymentE gsRent "r" "1" 0 = some (handlePayment gsRent "r" "1" 0) ∧
    handlePaymentE gs51 "r" "51" 0 = none := by
  have h := handlePaymentE_transfer gsRent "r" "1" 0
    { type := .city, country := "Brazil", cost := 60, rent := [4, 20, 60, 180, 320, 450] }
    { owner := some "o", houses := 0, hotels := 1, mortgaged := false }
    "o" { mkPlayer "o" 200 with cities := ["1"] } (mkPlayer "r" 1000) 450
    (by decide) (by decide) (by decide) (by decide) (by decide) (by decide)
    (by decide) (by decide)
  refine ⟨by decide, ?_, by norm_num, h.1, by decide⟩
  rw [h.2.1]
  norm_num [mkPlayer]

/-- C6 (amended): without the monopoly the rent is the base rent (table
    index 0) regardless of houses — unless the square records a hotel: the
    override charges the table's index-5 entry, monopoly or not, whenever
    that entry exists; on Melbourne ("51"), whose table has only five
    entries, the read is undefined and the payment corrupts both balances to
    NaN (the exact model's error result). -/
theorem handlePaymentE_noMonopoly (gs : GameState) (renterId pos : String) (dice : Int)
    (sq : BoardSquare) (st : PropertyState) (ownerId : PlayerId) (owner renter : Player)
    (country : CountryInfo)
    (hsq : getKey initialBoardState pos = some sq)
    (htype : sq.type = .city)
    (hst : getKey gs.board pos = some st)
    (howner : st.owner = some ownerId)
    (hguard : (ownerId == renterId || st.mortgaged) = false)
    (hren : getKey gs.players renterId = some renter)
    (how : getKey gs.players ownerId = some owner)
    (hjail : (owner.inJail && !gs.settings.rentInJail) = false)
    (hc : getKey countryData sq.country = some country)
    (hmono : country.cities.all (fun cityId => owner.cities.contains (toString cityId)) = false) :
    (st.hotels ≤ 0 →
      handlePaymentE gs renterId pos dice = some (handlePayment gs renterId pos dice) ∧
      moneyAt (handlePayment gs renterId pos dice) renterId =
        some (renter.money - rentEntry sq 0)) ∧
    (∀ z : Int, st.hotels > 0 → sq.rent.get? 5 = some z →
      handlePaymentE gs renterId pos dice = some (handlePayment gs renterId pos dice) ∧
      moneyAt (handlePayment gs renterId pos dice) renterId =
        some (renter.money - (z : ℚ))) ∧
    (st.hotels > 0 → sq.rent.get? 5 = none →
      handlePaymentE gs renterId pos dice = none) := by
  refine ⟨?_, ?_, ?_⟩
  · intro hh
    have hrentE : rentOfE sq st owner gs.settings dice = some (some (rentEntry sq 0)) := by
      unfold rentOfE
      rw [htype]
      dsimp only
      rw [hc]
      dsimp only
      rw [if_neg (not_lt.mpr hh), hmono, if_neg Bool.false_ne_true]
    have h := handlePaymentE_transfer gs renterId pos dice sq st ownerId owner renter
      (rentEntry sq 0) hsq hst howner hguard hren how hjail hrentE
    exact ⟨h.1, h.2.1⟩
  · intro z hh h5
    have hrentE : rentOfE sq st owner gs.settings dice = some (some ((z : Int) : ℚ)) := by
      unfold rentOfE
      rw [htype]
      dsimp only
      rw [hc]
      dsimp only
      rw [if_pos hh, h5]
      rfl
    have h := handlePaymentE_transfer gs renterId pos dice sq st ownerId owner renter
      ((z : Int) : ℚ) hsq hst howner hguard hren how hjail hrentE
    exact ⟨h.1, h.2.1⟩
  · intro hh h5
    exact handlePaymentE_nan gs renterId pos dice sq st ownerId owner renter country
      hsq hst howner hguard hren how hjail htype hc hh h5

/-- Witness for `handlePaymentE_noMonopoly` at `gsRent`. -/
theorem handlePaymentE_noMonopoly_witness :
    ((1 : Int) ≤ 0 →
      handlePaymentE gsRent "r" "1" 0 = some (handlePayment gsRent "r" "1" 0) ∧
      moneyAt (handlePayment gsRent "r" "1" 0) "r" =
        some ((mkPlayer "r" 1000).money -
          rentEntry { type := .city, country := "Brazil", cost := 60,
                      rent := [4, 20, 60, 180, 320, 450] } 0)) ∧
    (∀ z : Int, (1 : Int) > 0 →
      ({ type := .city, country := "Brazil", cost := 60,
         rent := [4, 20, 60, 180, 320, 450] } : BoardSquare).rent.get? 5 = some z →
      handlePaymentE gsRent "r" "1" 0 = some (handlePayment gsRent "r" "1" 0) ∧
      moneyAt (handlePayment gsRent "r" "1" 0) "r" =
        some ((mkPlayer "r" 1000).money - (z : ℚ))) ∧
    ((1 : Int) > 0 →
      ({ type := .city, country := "Brazil", cost := 60,
         rent := [4, 20, 60, 180, 320, 450] } : BoardSquare).rent.get? 5 = none →
      handlePaymentE gsRent "r" "1" 0 = none) :=
  handlePaymentE_noMonopoly gsRent "r" "1" 0
    { type := .city, country := "Brazil", cost := 60, rent := [4, 20, 60, 180, 320, 450] }
    { owner := some "o", houses := 0, hotels := 1, mortgaged := false }
    "o" { mkPlayer "o" 200 with cities := ["1"] } (mkPlayer "r" 1000)
    { cities := [1, 3, 6], houseCost := 50 }
    (by decide) (by decide) (by decide) (by decide) (by decide) (by decide)
    (by decide) (by decide) (by decide) (by decide)

end Monopoly

namespace Monopoly

/-- C9 (amended): integrality of all player balances is preserved by the
    jail, building, bankruptcy, turn, dice and auction/trade management
    operations unconditionally; by every successful run of the exact models
    `buyPropertyE` and `handlePaymentE` (their error runs write NaN — not an
    integer — into the balances: the no-cost-square purchase and the
    Melbourne hotel rent); by `endAuction` whenever every recorded bid is
    integral; by `handleAcceptTrade` whenever the trade's two money amounts
    are integral; and by `sellProperty`/`mortgageProperty` (credit `cost/2`)
    only for even-cost squares and by `unmortgageProperty` (debit
    `(cost/2) * 1.1`) only for squares whose cost is a multiple of 20 — the
    original claim fails on the other squares (see
    `unmortgage_fractional_cex`). -/
theorem moneyInteger_operations :
    (∀ gs pid, MoneyInt gs → MoneyInt (goToJail gs pid)) ∧
    (∀ gs pid, MoneyInt gs → MoneyInt (payJailFine gs pid)) ∧
    (∀ gs pid, MoneyInt gs → MoneyInt (handleUsePardonCard gs pid)) ∧
    (∀ gs pid pos gs', buyPropertyE gs pid pos = some gs' → MoneyInt gs →
       MoneyInt gs') ∧
    (∀ gs pid cityId, MoneyInt gs → MoneyInt (buildHouse gs pid cityId)) ∧
    (∀ gs pid cityId, MoneyInt gs → MoneyInt (sellHouse gs pid cityId)) ∧
    (∀ gs pid, MoneyInt gs → MoneyInt (handleBankruptcy gs pid)) ∧
    (∀ gs renterId pos dice gs', handlePaymentE gs renterId pos dice = some gs' →
       MoneyInt gs → MoneyInt gs') ∧
    (∀ gs, MoneyInt gs → MoneyInt (handleEndTurn gs)) ∧
    (∀ gs pid d1 d2, MoneyInt gs → MoneyInt (handleRollDice gs pid d1 d2)) ∧
    (∀ gs pid amt, MoneyInt gs → MoneyInt (placeBid gs pid amt)) ∧
    (∀ gs propId bid seller, MoneyInt gs → MoneyInt (startAuction gs propId bid seller)) ∧
    (∀ gs tid, MoneyInt gs → MoneyInt (handleRejectTrade gs tid)) ∧
    (∀ gs, (∀ e ∈ gs.auction.bids, IsInt e.2) → MoneyInt gs →
       MoneyInt (endAuction gs)) ∧
    (∀ gs tid, (∀ t, getKey gs.trades tid = some t →
         IsInt t.offer.money ∧ IsInt t.request.money) → MoneyInt gs →
       MoneyInt (handleAcceptTrade gs tid)) ∧
    (∀ gs pid propId, (∀ sq, getKey initialBoardState propId = some sq →
         sq.cost % 2 = 0) → MoneyInt gs → MoneyInt (sellProperty gs pid propId)) ∧
    (∀ gs pid propId, (∀ sq, getKey initialBoardState propId = some sq →
         sq.cost % 2 = 0) → MoneyInt gs → MoneyInt (mortgageProperty gs pid propId)) ∧
    (∀ gs pid propId, (∀ sq, getKey initialBoardState propId = some sq →
         sq.cost % 20 = 0) → MoneyInt gs → MoneyInt (unmortgageProperty gs pid propId)) :=
  ⟨fun _ pid => moneyInt_goToJail pid,
   fun _ pid => moneyInt_payJailFine pid,
   fun _ pid => moneyInt_handleUsePardonCard pid,
   fun _ _ _ _ he h => moneyInt_buyPropertyE he h,
   fun _ pid cityId => moneyInt_buildHouse pid cityId,
   fun _ pid cityId => moneyInt_sellHouse pid cityId,
   fun _ pid => moneyInt_handleBankruptcy pid,
   fun _ _ _ _ _ he h => moneyInt_handlePaymentE he h,
   fun _ => moneyInt_handleEndTurn,
   fun _ pid d1 d2 => moneyInt_handleRollDice pid d1 d2,
   fun _ pid amt => moneyInt_placeBid pid amt,
   fun _ propId bid seller => moneyInt_startAuction propId bid seller,
   fun _ tid => moneyInt_handleRejectTrade tid,
   fun _ hb => moneyInt_endAuction hb,
   fun _ tid ht => moneyInt_handleAcceptTrade tid ht,
   fun _ pid propId he => moneyInt_sellProperty pid propId he,
   fun _ pid propId he => moneyInt_mortgageProperty pid propId he,
   fun _ pid propId hd => moneyInt_unmortgageProperty pid propId hd⟩

/-- One player holding $1000 and the mortgaged first airport (square "5",
    cost $200, a multiple of 20). -/
def gsW9 : GameState :=
  mkState [("p1", mkPlayer "p1" 1000)]
    [("5", { owner := some "p1", houses := 0, hotels := 0, mortgaged := true })]

/-- Witness for `moneyInteger_operations` at the concrete state `gsW9`. -/
theorem moneyInteger_operations_witness :
    MoneyInt gsW9 ∧
    MoneyInt (payJailFine gsW9 "p1") ∧
    MoneyInt (handleEndTurn gsW9) ∧
    MoneyInt (endAuction gsW9) ∧
    MoneyInt (handleAcceptTrade gsW9 "t1") ∧
    MoneyInt gsW9 ∧
    MoneyInt gsW9 ∧
    MoneyInt (sellProperty gsW9 "p1" "5") ∧
    MoneyInt (mortgageProperty gsW9 "p1" "5") ∧
    MoneyInt (unmortgageProperty gsW9 "p1" "5") :=
  ⟨by decide,
   moneyInteger_operations.2.1 gsW9 "p1" (by decide),
   moneyInteger_operations.2.2.2.2.2.2.2.2.1 gsW9 (by decide),
   moneyInteger_operations.2.2.2.2.2.2.2.2.2.2.2.2.2.1 gsW9 (by decide) (by decide),
   moneyInteger_operations.2.2.2.2.2.2.2.2.2.2.2.2.2.2.1 gsW9 "t1"
     (fun t ht => nomatch ht) (by decide),
   moneyInteger_operations.2.2.2.1 gsW9 "zz" 5 gsW9 (by decide) (by decide),
   moneyInteger_operations.2.2.2.2.2.2.2.1 gsW9 "p1" "5" 0 gsW9 (by decide) (by decide),
   moneyInteger_operations.2.2.2.2.2.2.2.2.2.2.2.2.2.2.2.1 gsW9 "p1" "5"
     (fun sq hsq => by
       cases Option.some.inj
         ((rfl : getKey initialBoardState "5" =
             some { type := .airport, cost := 200,
                    rent := [25, 50, 100, 200] }).symm.trans hsq)
       decide) (by decide),
   moneyInteger_operations.2.2.2.2.2.2.2.2.2.2.2.2.2.2.2.2.1 gsW9 "p1" "5"
     (fun sq hsq => by
       cases Option.some.inj
         ((rfl : getKey initialBoardState "5" =
             some { type := .airport, cost := 200,
                    rent := [25, 50, 100, 200] }).symm.trans hsq)
       decide) (by decide),
   moneyInteger_operations.2.2.2.2.2.2.2.2.2.2.2.2.2.2.2.2.2 gsW9 "p1" "5"
     (fun sq hsq => by
       cases Option.some.inj
         ((rfl : getKey initialBoardState "5" =
             some { type := .airport, cost := 200,
                    rent := [25, 50, 100, 200] }).symm.trans hsq)
       decide) (by decide)⟩

end Monopoly
